import Mathlib

/-!
Verification of the sheet reconciliation engine of the excel-mcp-client
repository (src/sheet_manager.py and src/mcp_connector.py).

The grid is modelled as a function from (row, column) to an optional cell
value; `none` is an empty cell.  Cell text contents are modelled; purely
presentational styling (background colors, bold, font size, column widths,
frozen panes, row autofit) is write-only in the source and is not part of
the model.  xlwings cell reads return `None` for blank cells, which maps to
`none` here.  The external CLI subprocess of mcp_connector.py is modelled by
an explicit outcome datatype (`ExecOutcome`), and the JSON parser by the
parse result it would produce.
-/

namespace ExcelMCP

/-! ## Data model (src/mcp_connector.py, dataclasses) -/

/-- `MCPServer` dataclass: name, status ("Connected", "Disconnected", "Error"
    per the comment in the source), optional error message. -/
structure MCPServer where
  name : String
  status : String
  error_message : Option String := none
deriving DecidableEq

/-- `MCPCapability` dataclass (the opaque `details` payload is not modelled;
    no claim depends on it). -/
structure MCPCapability where
  name : String
  capability_type : String
  description : Option String := none
deriving DecidableEq

/-- Result of `MCPConnector.get_all_capabilities`: the dict with keys
    "tools", "resources", "prompts". -/
structure Caps where
  tools : List MCPCapability
  resources : List MCPCapability
  prompts : List MCPCapability
deriving DecidableEq

/-! ## Grid model (the xlwings sheet surface used by SheetManager) -/

/-- A sheet: cell text values addressed by (row, column), 1-based. -/
def Grid : Type := Nat → Nat → Option String

/-- `sheet.range((r, c)).value = v` -/
def setCell (g : Grid) (r c : Nat) (v : String) : Grid :=
  fun r' c' => if r' = r ∧ c' = c then some v else g r' c'

/-- SheetManager.HEADER_ROW -/
def HEADER_ROW : Nat := 1
/-- SheetManager.STATUS_ROW -/
def STATUS_ROW : Nat := 2
/-- SheetManager.FIRST_DATA_ROW -/
def FIRST_DATA_ROW : Nat := 4
/-- `sheet.cells.last_cell.row` for an .xlsx sheet. -/
def MAXROW : Nat := 1048576
/-- The number of columns of an .xlsx sheet (scans past this raise in
    xlwings; used as recursion fuel for the unbounded `while` scans). -/
def MAXCOL : Nat := 16384

/-- `SheetManager._clear_column`: clear values from the status row down to
    the last sheet row in column `col` (the header row is not touched). -/
def clearColumn (g : Grid) (col : Nat) : Grid :=
  fun r c => if c = col ∧ STATUS_ROW ≤ r ∧ r ≤ MAXROW then none else g r c

/-- The `while True` scan of `SheetManager._find_server_column`, with fuel:
    stop with `none` at the first blank header cell, or return the first
    column whose header equals `name`. -/
def findFrom (g : Grid) (name : String) : Nat → Nat → Option Nat
  | 0, _ => none
  | fuel + 1, col =>
    match g HEADER_ROW col with
    | none => none
    | some v => if v = name then some col else findFrom g name fuel (col + 1)

/-- `SheetManager._find_server_column`: scan the header row from column 2. -/
def findServerColumn (g : Grid) (name : String) : Option Nat :=
  findFrom g name MAXCOL 2

/-- The scan of `SheetManager._get_next_column`, tracking `last_col`. -/
def nextFrom (g : Grid) : Nat → Nat → Nat → Nat
  | 0, _, lastCol => lastCol + 1
  | fuel + 1, col, lastCol =>
    match g HEADER_ROW col with
    | none => if lastCol > 1 then lastCol + 1 else 2
    | some _ => nextFrom g fuel (col + 1) col

/-- `SheetManager._get_next_column`: first free header column from column 2. -/
def getNextColumn (g : Grid) : Nat := nextFrom g MAXCOL 2 1

/-- The per-capability loop inside `SheetManager._write_capability_section`:
    write the label in column 1 when it differs, and a check mark in the
    server's column; returns the grid and the next free row. -/
def writeCaps (col : Nat) : Grid → Nat → List MCPCapability → Grid × Nat
  | g, row, [] => (g, row)
  | g, row, cap :: rest =>
    let g1 := if g row 1 ≠ some cap.name then setCell g row 1 cap.name else g
    let g2 := setCell g1 row col "✓"
    writeCaps col g2 (row + 1) rest

/-- `SheetManager._write_capability_section`. -/
def writeCapabilitySection (g : Grid) (col startRow : Nat) (sectionName : String)
    (capabilities : List MCPCapability) : Grid × Nat :=
  let g1 := if g startRow 1 ≠ some sectionName then setCell g startRow 1 sectionName else g
  if capabilities.isEmpty then
    (setCell g1 startRow col "-", startRow + 1)
  else
    let g2 := setCell g1 startRow col "✓"
    writeCaps col g2 (startRow + 1) capabilities

/-- `SheetManager._write_server_column`. -/
def writeServerColumn (g : Grid) (col : Nat) (server : MCPServer) (capabilities : Caps) :
    Grid :=
  let g1 := setCell g HEADER_ROW col server.name
  let g2 := setCell g1 STATUS_ROW col server.status
  let p1 := writeCapabilitySection g2 col FIRST_DATA_ROW "TOOLS" capabilities.tools
  let p2 := writeCapabilitySection p1.1 col (p1.2 + 1) "RESOURCES" capabilities.resources
  let p3 := writeCapabilitySection p2.1 col (p2.2 + 1) "PROMPTS" capabilities.prompts
  p3.1

/-- The capability source as `update_sheet` consumes it: the discovered
    server list, the connection check and the capability query.  `Except`
    models a call that raises (caught by `update_sheet`'s `except`). -/
structure Source where
  servers : List MCPServer
  check : String → Except String MCPServer
  caps : String → Except String Caps

/-- Lines 266-272 / 278-282 of sheet_manager.py (identical in both
    branches): find the server's column, clearing it when reused, or
    allocate the next free column. -/
def resolveCol (g : Grid) (name : String) : Grid × Nat :=
  match findServerColumn g name with
  | some c => (clearColumn g c, c)
  | none => (g, getNextColumn g)

/-- The `errors.append` message for a not-connected server:
    `server.error_message or 'Connection failed'` (Python `or`, so an empty
    string also falls back). -/
def connFailMsg (server : MCPServer) : String :=
  match server.error_message with
  | some m => if m = "" then "Connection failed" else m
  | none => "Connection failed"

/-- The body of the `for server in servers` loop of
    `SheetManager.update_sheet` (lines 255-298), acting on the state
    (grid, connected_count, errors).  An `Except.error` from `check` or
    `caps` is the exception caught at line 297. -/
def step (src : Source) (st : Grid × Nat × List String) (server0 : MCPServer) :
    Grid × Nat × List String :=
  match src.check server0.name with
  | .error e => (st.1, st.2.1, st.2.2 ++ [server0.name ++ ": " ++ e])
  | .ok server =>
    if server.status = "Connected" then
      -- connected_count is incremented before the capability query
      match src.caps server.name with
      | .error e => (st.1, st.2.1 + 1, st.2.2 ++ [server.name ++ ": " ++ e])
      | .ok capabilities =>
        let p := resolveCol st.1 server.name
        (writeServerColumn p.1 p.2 server capabilities, st.2.1 + 1, st.2.2)
    else
      let p := resolveCol st.1 server.name
      let g1 := setCell p.1 HEADER_ROW p.2 server.name
      let g2 := setCell g1 STATUS_ROW p.2 server.status
      (g2, st.2.1, st.2.2 ++ [server.name ++ ": " ++ connFailMsg server])

/-- `SheetManager._initialize_sheet_structure`: the cell values written when
    the MCPs sheet is created. -/
def initGrid : Grid :=
  fun r c =>
    if r = 1 ∧ c = 1 then some "Capability Type"
    else if r = 2 ∧ c = 1 then some "Status"
    else none

/-- `SheetManager.ensure_sheet_exists`: the workbook's MCPs sheet, created
    empty-initialized when absent. -/
def ensureSheet : Option Grid → Grid
  | some g => g
  | none => initGrid

/-- `SheetManager.update_sheet`: returns the resulting grid together with
    the (servers_found, servers_connected, errors) result tuple. -/
def updateSheet (wb : Option Grid) (src : Source) : Grid × Nat × Nat × List String :=
  let sheet := ensureSheet wb
  if src.servers.isEmpty then
    (sheet, 0, 0, ["No MCP servers found"])
  else
    let st := src.servers.foldl (step src) (sheet, 0, ([] : List String))
    (st.1, src.servers.length, st.2.1, st.2.2)

/-- Python `str.lower()` over the character sequence (structural form of
    `String.toLower`, which the kernel cannot reduce). -/
def strLower (s : String) : String := ⟨s.data.map Char.toLower⟩

/-- Python `value.lower().rstrip('s')`: strip all trailing `s` characters. -/
def rstripS (s : String) : String :=
  ⟨(s.data.reverse.dropWhile (fun ch => ch = 's')).reverse⟩

/-- The upward scan of `SheetManager.get_capability_at_cell`
    (`while search_row >= FIRST_DATA_ROW`). -/
def searchSectionFrom (g : Grid) : Nat → Option String
  | 0 => none
  | r + 1 =>
    if r + 1 < FIRST_DATA_ROW then none
    else
      match g (r + 1) 1 with
      | some v =>
        if v = "TOOLS" ∨ v = "RESOURCES" ∨ v = "PROMPTS" then some v
        else searchSectionFrom g r
      | none => searchSectionFrom g r

/-- `SheetManager.get_capability_at_cell` (the locator):
    (server_name, capability_type, capability_name) or `none`.  Python's
    falsy test `if not x` on a cell value means blank or empty string. -/
def getCapabilityAtCell (g : Grid) (row col : Nat) : Option (String × String × String) :=
  match g HEADER_ROW col with
  | none => none
  | some serverName =>
    if serverName = "" then none
    else
      match g row 1 with
      | none => none
      | some capabilityName =>
        if capabilityName = "" then none
        else
          match searchSectionFrom g row with
          | some v => some (serverName, rstripS (strLower v), capabilityName)
          | none => none

/-! ## Connector model (src/mcp_connector.py) -/

/-- JSON values, as produced by `json.loads`. -/
inductive Json where
  | null
  | bool (b : Bool)
  | num (n : Int)
  | str (s : String)
  | arr (xs : List Json)
  | obj (kvs : List (String × Json))

/-- Python truthiness of a parsed JSON value (`if result["data"]:`). -/
def Json.truthy : Json → Bool
  | .null => false
  | .bool b => b
  | .num n => n != 0
  | .str s => s != ""
  | .arr xs => !xs.isEmpty
  | .obj kvs => !kvs.isEmpty

/-- `server_data.get("name", "")` followed by use as the server name
    (string payloads; a non-string payload contributes no name text). -/
def pyStr : Json → String
  | .str s => s
  | _ => ""

/-- Outcome of the `subprocess.run` call in `MCPConnector._execute_command`:
    completion with exit code and captured output (plus the result of
    `json.loads` on stdout, `none` for a JSONDecodeError), a timeout, a
    missing executable, or another exception. -/
inductive ExecOutcome where
  | completed (returncode : Int) (stdout stderr : String) (parsed : Option Json)
  | timedOut
  | notFound
  | raised (msg : String)

/-- The dictionary `MCPConnector._execute_command` returns, reduced to the
    fields its callers read: success with data and raw_output, or failure
    with the error string. -/
inductive CmdResult where
  | ok (data : Json) (raw_output : String)
  | err (error : String)

/-- `MCPConnector._execute_command`. -/
def executeCommand (cliPath : String) (timeoutSecs : Nat) : ExecOutcome → CmdResult
  | .completed rc stdout stderr parsed =>
    if rc = 0 then
      if stdout.trim = "" then .ok (.obj []) stdout
      else
        match parsed with
        | some j => .ok j stdout
        | none => .ok (.obj []) stdout
    else .err (if stderr = "" then stdout else stderr)
  | .timedOut => .err ("Command timed out after " ++ toString timeoutSecs ++ " seconds")
  | .notFound => .err ("manus-mcp-cli not found at " ++ cliPath)
  | .raised msg => .err msg

/-- Python `"No MCP servers found" in raw_output` (substring test). -/
def containsSubstr (s pat : String) : Bool :=
  2 ≤ (s.splitOn pat).length

/-- The text-format fallback of `discover_servers`: split stripped stdout
    into lines, skip blank/comment/"No "-lines, take the first
    whitespace-separated token as the server name. -/
def parseTextLines (raw : String) : List MCPServer :=
  (raw.trim.splitOn "\n").filterMap fun line0 =>
    let line := line0.trim
    if line = "" then none
    else if line.startsWith "#" then none
    else if line.startsWith "No " then none
    else
      match (line.split fun ch => ch.isWhitespace).filter (fun p => p ≠ "") with
      | [] => none
      | p :: _ => some { name := p, status := "Unknown" }

/-- The JSON-format branch of `discover_servers`. -/
def serversOfJson : Json → List MCPServer
  | .arr xs =>
    xs.filterMap fun x =>
      match x with
      | .obj kvs =>
        some { name := pyStr ((List.lookup "name" kvs).getD (.str "")), status := "Unknown" }
      | .str s => some { name := s, status := "Unknown" }
      | _ => none
  | .obj kvs => kvs.map fun kv => { name := kv.1, status := "Unknown" }
  | _ => []

/-- `MCPConnector.discover_servers`, as a function of the command result. -/
def discoverServers (result : CmdResult) : List MCPServer :=
  match result with
  | .err _ => []
  | .ok data raw =>
    if containsSubstr raw "No MCP servers found" then []
    else if data.truthy then serversOfJson data
    else parseTextLines raw

/-- `MCPConnector.check_server_connection`, as a function of the command
    result for `server check -s <name>`. -/
def checkServerConnection (serverName : String) (result : CmdResult) : MCPServer :=
  match result with
  | .ok _ _ => { name := serverName, status := "Connected" }
  | .err e => { name := serverName, status := "Disconnected", error_message := some e }

/-! ## Characterization of the write pass

`overlay w old` is "the cell after a pass that writes `w` (when `some`)
over previous content `old`". The functions `secColVal`, `secLabelVal`,
`colVal`, `colOneVal` below describe, row by row, what
`_write_capability_section` / `_write_server_column` write; the lemmas
prove the recursive write functions equal to these descriptions. -/

def overlay (w old : Option String) : Option String :=
  match w with
  | some v => some v
  | none => old

@[simp] lemma overlay_some (v : String) (old : Option String) :
    overlay (some v) old = some v := rfl

@[simp] lemma overlay_none (old : Option String) : overlay none old = old := rfl

lemma overlay_assoc (a b c : Option String) :
    overlay (overlay a b) c = overlay a (overlay b c) := by
  cases a <;> rfl

lemma overlay_comm_of_disj (a b : Option String) (x : Option String)
    (h : a = none ∨ b = none) :
    overlay a (overlay b x) = overlay b (overlay a x) := by
  rcases h with h | h <;> subst h <;> rfl

/-- Number of rows a section occupies in its server's column: the
    header/marker row plus one row per capability. -/
def secLen (caps : List MCPCapability) : Nat :=
  if caps.isEmpty then 1 else 1 + caps.length

/-- What `_write_capability_section` writes in the server's column at row
    `r` for a section starting at `start`. -/
def secColVal (caps : List MCPCapability) (start r : Nat) : Option String :=
  if r = start then some (if caps.isEmpty then "-" else "✓")
  else if start + 1 ≤ r then (caps.get? (r - (start + 1))).map (fun _ => "✓")
  else none

/-- What `_write_capability_section` writes in column 1 at row `r`. -/
def secLabelVal (caps : List MCPCapability) (sectionName : String) (start r : Nat) :
    Option String :=
  if r = start then some sectionName
  else if start + 1 ≤ r then (caps.get? (r - (start + 1))).map MCPCapability.name
  else none

/-- Start row of the RESOURCES section for a server with capabilities `cs`. -/
def resourcesRow (cs : Caps) : Nat := FIRST_DATA_ROW + secLen cs.tools + 1

/-- Start row of the PROMPTS section. -/
def promptsRow (cs : Caps) : Nat := resourcesRow cs + secLen cs.resources + 1

/-- One past the last row `_write_server_column` can write. -/
def endRow (cs : Caps) : Nat := promptsRow cs + secLen cs.prompts

/-- What `_write_server_column` writes in the server's own column at row
    `r ≥ 2` (the header row is handled separately). -/
def colVal (status : String) (cs : Caps) (r : Nat) : Option String :=
  if r = STATUS_ROW then some status
  else
    overlay (secColVal cs.tools FIRST_DATA_ROW r)
      (overlay (secColVal cs.resources (resourcesRow cs) r)
        (secColVal cs.prompts (promptsRow cs) r))

/-- What `_write_server_column` writes in column 1 at row `r`. -/
def colOneVal (cs : Caps) (r : Nat) : Option String :=
  overlay (secLabelVal cs.tools "TOOLS" FIRST_DATA_ROW r)
    (overlay (secLabelVal cs.resources "RESOURCES" (resourcesRow cs) r)
      (secLabelVal cs.prompts "PROMPTS" (promptsRow cs) r))

lemma condWrite_apply (g : Grid) (row : Nat) (v : String) (r c : Nat) :
    (if g row 1 ≠ some v then setCell g row 1 v else g) r c =
      if r = row ∧ c = 1 then some v else g r c := by
  by_cases h : g row 1 = some v
  · simp only [h, ne_eq, not_true_eq_false, if_false]
    by_cases hrc : r = row ∧ c = 1
    · rw [if_pos hrc, hrc.1, hrc.2, h]
    · rw [if_neg hrc]
  · simp only [ne_eq, h, not_false_eq_true, if_true, setCell]

lemma writeCaps_snd (col : Nat) :
    ∀ (caps : List MCPCapability) (g : Grid) (row : Nat),
      (writeCaps col g row caps).2 = row + caps.length := by
  intro caps
  induction caps with
  | nil => intro g row; simp [writeCaps]
  | cons cap rest ih =>
    intro g row
    simp only [writeCaps, ih, List.length_cons]
    omega

lemma writeCaps_apply (col : Nat) :
    ∀ (caps : List MCPCapability) (g : Grid) (row r c : Nat),
      (writeCaps col g row caps).1 r c =
        if c = col ∧ row ≤ r then
          overlay ((caps.get? (r - row)).map (fun _ => "✓")) (g r c)
        else if c = 1 ∧ row ≤ r then
          overlay ((caps.get? (r - row)).map MCPCapability.name) (g r c)
        else g r c := by
  intro caps
  induction caps with
  | nil =>
    intro g row r c
    simp only [writeCaps, List.get?_nil, Option.map_none', overlay_none]
    split <;> try rfl
    split <;> rfl
  | cons cap rest ih =>
    intro g row r c
    have hwc : writeCaps col g row (cap :: rest) =
        writeCaps col (setCell (if g row 1 ≠ some cap.name then setCell g row 1 cap.name else g)
          row col "✓") (row + 1) rest := rfl
    rw [hwc, ih]
    have h2 : ∀ r' c',
        setCell (if g row 1 ≠ some cap.name then setCell g row 1 cap.name else g) row col "✓" r' c' =
          if r' = row ∧ c' = col then some "✓"
          else if r' = row ∧ c' = 1 then some cap.name
          else g r' c' := by
      intro r' c'
      simp only [setCell]
      by_cases hc : r' = row ∧ c' = col
      · rw [if_pos hc, if_pos hc]
      · rw [if_neg hc, if_neg hc, condWrite_apply]
    simp only [h2]
    rcases Nat.lt_trichotomy r row with hlt | heq | hgt
    · have c1 : ¬ (c = col ∧ row + 1 ≤ r) := by omega
      have c2 : ¬ (c = 1 ∧ row + 1 ≤ r) := by omega
      have c3 : ¬ (r = row ∧ c = col) := by omega
      have c4 : ¬ (r = row ∧ c = 1) := by omega
      have c5 : ¬ (c = col ∧ row ≤ r) := by omega
      have c6 : ¬ (c = 1 ∧ row ≤ r) := by omega
      simp only [c1, c2, c3, c4, c5, c6, if_false]
    · have c1 : ¬ (c = col ∧ row + 1 ≤ r) := by omega
      have c2 : ¬ (c = 1 ∧ row + 1 ≤ r) := by omega
      have hsub : r - row = 0 := by omega
      have hle : row ≤ r := by omega
      rw [if_neg c1, if_neg c2]
      by_cases hcc : c = col
      · rw [if_pos ⟨heq, hcc⟩, if_pos ⟨hcc, hle⟩, hsub, List.get?_cons_zero]
        rfl
      · by_cases hc1 : c = 1
        · rw [if_neg (fun h => hcc h.2), if_pos ⟨heq, hc1⟩, if_neg (fun h => hcc h.1),
            if_pos ⟨hc1, hle⟩, hsub, List.get?_cons_zero]
          rfl
        · rw [if_neg (fun h => hcc h.2), if_neg (fun h => hc1 h.2),
            if_neg (fun h => hcc h.1), if_neg (fun h => hc1 h.1)]
    · have hr1 : row + 1 ≤ r := hgt
      have hr : row ≤ r := by omega
      have hne : ¬ (r = row) := by omega
      have hsub : r - row = (r - (row + 1)) + 1 := by omega
      simp only [hr1, hr, and_true, hne, false_and, if_false, hsub, List.get?_cons_succ]

lemma writeCapabilitySection_snd (g : Grid) (col startRow : Nat) (name : String)
    (caps : List MCPCapability) :
    (writeCapabilitySection g col startRow name caps).2 = startRow + secLen caps := by
  rcases caps with _ | ⟨cap, rest⟩
  · simp [writeCapabilitySection, secLen]
  · simp only [writeCapabilitySection, secLen, List.isEmpty_cons, Bool.false_eq_true,
      if_false]
    rw [writeCaps_snd]
    simp only [List.length_cons]
    omega

lemma secLen_pos (caps : List MCPCapability) : 1 ≤ secLen caps := by
  unfold secLen
  split <;> omega

lemma secColVal_ne_none_bounds (caps : List MCPCapability) (start r : Nat)
    (h : secColVal caps start r ≠ none) : start ≤ r ∧ r < start + secLen caps := by
  unfold secColVal at h
  by_cases he : r = start
  · have := secLen_pos caps
    omega
  · rw [if_neg he] at h
    by_cases hle : start + 1 ≤ r
    · rw [if_pos hle] at h
      have hlen : r - (start + 1) < caps.length := by
        by_contra hcon
        rw [List.get?_eq_none.mpr (by omega)] at h
        exact h rfl
      have hne : ¬ caps.isEmpty := by
        cases caps
        · simp at hlen
        · simp
      unfold secLen
      rw [if_neg hne]
      omega
    · rw [if_neg hle] at h
      exact absurd rfl h

lemma secLabelVal_ne_none_bounds (caps : List MCPCapability) (name : String) (start r : Nat)
    (h : secLabelVal caps name start r ≠ none) : start ≤ r ∧ r < start + secLen caps := by
  unfold secLabelVal at h
  by_cases he : r = start
  · have := secLen_pos caps
    omega
  · rw [if_neg he] at h
    by_cases hle : start + 1 ≤ r
    · rw [if_pos hle] at h
      have hlen : r - (start + 1) < caps.length := by
        by_contra hcon
        rw [List.get?_eq_none.mpr (by omega)] at h
        exact h rfl
      have hne : ¬ caps.isEmpty := by
        cases caps
        · simp at hlen
        · simp
      unfold secLen
      rw [if_neg hne]
      omega
    · rw [if_neg hle] at h
      exact absurd rfl h

lemma overlay3_reorder (T R P x : Option String)
    (hTR : T ≠ none → R = none) (hTP : T ≠ none → P = none) (hRP : R ≠ none → P = none) :
    overlay P (overlay R (overlay T x)) = overlay (overlay T (overlay R P)) x := by
  cases T with
  | some t =>
    rw [hTR (by simp), hTP (by simp)]
    rfl
  | none =>
    cases R with
    | some rv =>
      rw [hRP (by simp)]
      rfl
    | none => rfl

lemma writeCapabilitySection_apply (g : Grid) (col startRow : Nat)
    (name : String) (caps : List MCPCapability) (r c : Nat) :
    (writeCapabilitySection g col startRow name caps).1 r c =
      if c = col then overlay (secColVal caps startRow r) (g r c)
      else if c = 1 then overlay (secLabelVal caps name startRow r) (g r c)
      else g r c := by
  have hg1 : ∀ r' c',
      (if g startRow 1 ≠ some name then setCell g startRow 1 name else g) r' c' =
        if r' = startRow ∧ c' = 1 then some name else g r' c' := fun r' c' =>
    condWrite_apply g startRow name r' c'
  rcases caps with _ | ⟨cap, rest⟩
  · -- empty section: label row plus a "-" marker
    have hg3 : ∀ r' c',
        setCell (if g startRow 1 ≠ some name then setCell g startRow 1 name else g)
            startRow col "-" r' c' =
          if r' = startRow ∧ c' = col then some "-"
          else if r' = startRow ∧ c' = 1 then some name
          else g r' c' := by
      intro r' c'
      simp only [setCell]
      by_cases hc : r' = startRow ∧ c' = col
      · rw [if_pos hc, if_pos hc]
      · rw [if_neg hc, if_neg hc, hg1]
    show setCell (if g startRow 1 ≠ some name then setCell g startRow 1 name else g)
        startRow col "-" r c = _
    rw [hg3]
    simp only [secColVal, secLabelVal, List.isEmpty_nil, List.get?_nil, Option.map_none']
    rcases Nat.lt_trichotomy r startRow with hlt | heq | hgt
    · have c1 : ¬ (r = startRow ∧ c = col) := by omega
      have c2 : ¬ (r = startRow ∧ c = 1) := by omega
      have c3 : ¬ (r = startRow) := by omega
      have c4 : ¬ (startRow + 1 ≤ r) := by omega
      simp only [c1, c2, c3, c4, false_and, and_false, if_false, overlay_none]
      all_goals split <;> try rfl
      all_goals split <;> rfl
    · subst heq
      by_cases hcc : c = col
      · rw [if_pos ⟨rfl, hcc⟩, if_pos hcc, if_pos rfl, overlay_some]
        simp
      · by_cases hc1 : c = 1
        · rw [if_neg (fun h => hcc h.2), if_pos ⟨rfl, hc1⟩, if_neg hcc, if_pos hc1,
            if_pos rfl, overlay_some]
        · rw [if_neg (fun h => hcc h.2), if_neg (fun h => hc1 h.2), if_neg hcc, if_neg hc1]
    · have c1 : ¬ (r = startRow ∧ c = col) := by omega
      have c2 : ¬ (r = startRow ∧ c = 1) := by omega
      have c3 : ¬ (r = startRow) := by omega
      have c4 : startRow + 1 ≤ r := by omega
      simp only [c1, c2, c3, c4, false_and, and_false, if_false, if_true, overlay_none]
      all_goals split <;> try rfl
      all_goals split <;> rfl
  · -- non-empty section: "✓" marker then the capability rows
    simp only [writeCapabilitySection, List.isEmpty_cons, Bool.false_eq_true, if_false]
    rw [writeCaps_apply]
    have hg2 : ∀ r' c',
        setCell (if g startRow 1 ≠ some name then setCell g startRow 1 name else g)
            startRow col "✓" r' c' =
          if r' = startRow ∧ c' = col then some "✓"
          else if r' = startRow ∧ c' = 1 then some name
          else g r' c' := by
      intro r' c'
      simp only [setCell]
      by_cases hc : r' = startRow ∧ c' = col
      · rw [if_pos hc, if_pos hc]
      · rw [if_neg hc, if_neg hc, hg1]
    simp only [hg2, secColVal, secLabelVal, List.isEmpty_cons, Bool.false_eq_true, if_false]
    rcases Nat.lt_trichotomy r startRow with hlt | heq | hgt
    · have c1 : ¬ (c = col ∧ startRow + 1 ≤ r) := by omega
      have c2 : ¬ (c = 1 ∧ startRow + 1 ≤ r) := by omega
      have c3 : ¬ (r = startRow ∧ c = col) := by omega
      have c4 : ¬ (r = startRow ∧ c = 1) := by omega
      have c5 : ¬ (r = startRow) := by omega
      have c6 : ¬ (startRow + 1 ≤ r) := by omega
      simp only [c1, c2, c3, c4, c5, c6, false_and, and_false, if_false, overlay_none]
      all_goals split <;> try rfl
      all_goals split <;> rfl
    · subst heq
      have c1 : ¬ (c = col ∧ r + 1 ≤ r) := by omega
      have c2 : ¬ (c = 1 ∧ r + 1 ≤ r) := by omega
      rw [if_neg c1, if_neg c2]
      by_cases hcc : c = col
      · rw [if_pos ⟨rfl, hcc⟩, if_pos hcc, if_pos rfl, overlay_some]
      · by_cases hc1 : c = 1
        · rw [if_neg (fun h => hcc h.2), if_pos ⟨rfl, hc1⟩, if_neg hcc, if_pos hc1,
            if_pos rfl, overlay_some]
        · rw [if_neg (fun h => hcc h.2), if_neg (fun h => hc1 h.2), if_neg hcc, if_neg hc1]
    · have c3 : ¬ (r = startRow) := by omega
      have c4 : startRow + 1 ≤ r := by omega
      have c5 : ¬ (r = startRow ∧ c = col) := by omega
      have c6 : ¬ (r = startRow ∧ c = 1) := by omega
      simp only [c3, c4, c5, c6, false_and, and_false, if_false, if_true, and_true]
      all_goals split <;> try rfl
      all_goals split <;> rfl

lemma resourcesRow_ge (cs : Caps) : FIRST_DATA_ROW + 1 ≤ resourcesRow cs := by
  have := secLen_pos cs.tools
  unfold resourcesRow
  omega

lemma promptsRow_ge (cs : Caps) : resourcesRow cs + 1 ≤ promptsRow cs := by
  have := secLen_pos cs.resources
  unfold promptsRow
  omega

/-- Pairwise disjointness of what the three sections write in the server's
    column. -/
lemma colDisjTR (cs : Caps) (r : Nat)
    (h : secColVal cs.tools FIRST_DATA_ROW r ≠ none) :
    secColVal cs.resources (resourcesRow cs) r = none := by
  have hb := secColVal_ne_none_bounds _ _ _ h
  by_contra h2
  have hb2 := secColVal_ne_none_bounds _ _ _ h2
  unfold resourcesRow at hb2
  omega

lemma colDisjTP (cs : Caps) (r : Nat)
    (h : secColVal cs.tools FIRST_DATA_ROW r ≠ none) :
    secColVal cs.prompts (promptsRow cs) r = none := by
  have hb := secColVal_ne_none_bounds _ _ _ h
  by_contra h2
  have hb2 := secColVal_ne_none_bounds _ _ _ h2
  have h3 : resourcesRow cs = FIRST_DATA_ROW + secLen cs.tools + 1 := rfl
  have h4 : promptsRow cs = resourcesRow cs + secLen cs.resources + 1 := rfl
  omega

lemma colDisjRP (cs : Caps) (r : Nat)
    (h : secColVal cs.resources (resourcesRow cs) r ≠ none) :
    secColVal cs.prompts (promptsRow cs) r = none := by
  have hb := secColVal_ne_none_bounds _ _ _ h
  by_contra h2
  have hb2 := secColVal_ne_none_bounds _ _ _ h2
  unfold promptsRow at hb2
  omega

lemma labDisjTR (cs : Caps) (r : Nat)
    (h : secLabelVal cs.tools "TOOLS" FIRST_DATA_ROW r ≠ none) :
    secLabelVal cs.resources "RESOURCES" (resourcesRow cs) r = none := by
  have hb := secLabelVal_ne_none_bounds _ _ _ _ h
  by_contra h2
  have hb2 := secLabelVal_ne_none_bounds _ _ _ _ h2
  unfold resourcesRow at hb2
  omega

lemma labDisjTP (cs : Caps) (r : Nat)
    (h : secLabelVal cs.tools "TOOLS" FIRST_DATA_ROW r ≠ none) :
    secLabelVal cs.prompts "PROMPTS" (promptsRow cs) r = none := by
  have hb := secLabelVal_ne_none_bounds _ _ _ _ h
  by_contra h2
  have hb2 := secLabelVal_ne_none_bounds _ _ _ _ h2
  have h3 : resourcesRow cs = FIRST_DATA_ROW + secLen cs.tools + 1 := rfl
  have h4 : promptsRow cs = resourcesRow cs + secLen cs.resources + 1 := rfl
  omega

lemma labDisjRP (cs : Caps) (r : Nat)
    (h : secLabelVal cs.resources "RESOURCES" (resourcesRow cs) r ≠ none) :
    secLabelVal cs.prompts "PROMPTS" (promptsRow cs) r = none := by
  have hb := secLabelVal_ne_none_bounds _ _ _ _ h
  by_contra h2
  have hb2 := secLabelVal_ne_none_bounds _ _ _ _ h2
  unfold promptsRow at hb2
  omega

lemma secColVal_none_of_lt (caps : List MCPCapability) (start r : Nat) (h : r < start) :
    secColVal caps start r = none := by
  by_contra h2
  have := secColVal_ne_none_bounds _ _ _ h2
  omega

lemma secLabelVal_none_of_lt (caps : List MCPCapability) (name : String) (start r : Nat)
    (h : r < start) : secLabelVal caps name start r = none := by
  by_contra h2
  have := secLabelVal_ne_none_bounds _ _ _ _ h2
  omega

lemma colTRP_none_of_lt (cs : Caps) (r : Nat) (h : r < FIRST_DATA_ROW) :
    secColVal cs.tools FIRST_DATA_ROW r = none ∧
    secColVal cs.resources (resourcesRow cs) r = none ∧
    secColVal cs.prompts (promptsRow cs) r = none := by
  have h1 := resourcesRow_ge cs
  have h2 := promptsRow_ge cs
  exact ⟨secColVal_none_of_lt _ _ _ h, secColVal_none_of_lt _ _ _ (by omega),
    secColVal_none_of_lt _ _ _ (by omega)⟩

lemma writeServerColumn_apply (g : Grid) {col : Nat} (hcol : 2 ≤ col)
    (server : MCPServer) (cs : Caps) (r c : Nat) :
    writeServerColumn g col server cs r c =
      if c = col then
        (if r = HEADER_ROW then some server.name
         else overlay (colVal server.status cs r) (g r c))
      else if c = 1 then overlay (colOneVal cs r) (g r c)
      else g r c := by
  have hg2 : ∀ r' c',
      setCell (setCell g HEADER_ROW col server.name) STATUS_ROW col server.status r' c' =
        if r' = STATUS_ROW ∧ c' = col then some server.status
        else if r' = HEADER_ROW ∧ c' = col then some server.name
        else g r' c' := by
    intro r' c'
    simp only [setCell]
  simp only [writeServerColumn]
  simp only [writeCapabilitySection_snd, writeCapabilitySection_apply]
  have e1 : FIRST_DATA_ROW + secLen cs.tools + 1 = resourcesRow cs := rfl
  have e2 : resourcesRow cs + secLen cs.resources + 1 = promptsRow cs := rfl
  rw [e1, e2]
  simp only [hg2]
  by_cases hcc : c = col
  · subst hcc
    have hc1 : ¬ (c = 1) := by omega
    simp only [eq_self_iff_true, if_true, hc1, if_false, and_true]
    by_cases hr1 : r = HEADER_ROW
    · have h4 : r < FIRST_DATA_ROW := by rw [hr1]; decide
      obtain ⟨hTn, hRn, hPn⟩ := colTRP_none_of_lt cs r h4
      have hr2 : ¬ (r = STATUS_ROW) := by rw [hr1]; decide
      rw [hTn, hRn, hPn]
      simp only [overlay_none]
      rw [if_neg hr2, if_pos hr1, if_pos hr1]
    · by_cases hr2 : r = STATUS_ROW
      · have h4 : r < FIRST_DATA_ROW := by rw [hr2]; decide
        obtain ⟨hTn, hRn, hPn⟩ := colTRP_none_of_lt cs r h4
        rw [hTn, hRn, hPn]
        simp only [overlay_none]
        rw [if_pos hr2, if_neg hr1]
        simp only [colVal, if_pos hr2, overlay_some]
      · rw [if_neg hr2, if_neg hr1, if_neg hr1]
        simp only [colVal, hr2, if_false]
        exact overlay3_reorder _ _ _ _ (colDisjTR cs r) (colDisjTP cs r) (colDisjRP cs r)
  · by_cases hc1 : c = 1
    · subst hc1
      simp only [hcc, if_false, and_false, eq_self_iff_true, if_true]
      simp only [colOneVal]
      exact overlay3_reorder _ _ _ _ (labDisjTR cs r) (labDisjTP cs r) (labDisjRP cs r)
    · simp only [hcc, hc1, if_false, and_false]

/-! ## Header-row scan lemmas -/

lemma findFrom_sound (g : Grid) (name : String) :
    ∀ (fuel col c : Nat), findFrom g name fuel col = some c →
      col ≤ c ∧ g HEADER_ROW c = some name ∧
      (∀ c', col ≤ c' → c' < c → ∃ v, g HEADER_ROW c' = some v ∧ v ≠ name) := by
  intro fuel
  induction fuel with
  | zero => intro col c h; exact absurd h (by simp [findFrom])
  | succ fuel ih =>
    intro col c h
    unfold findFrom at h
    split at h
    · exact absurd h (by simp)
    · rename_i v hco
      by_cases hv : v = name
      · rw [if_pos hv] at h
        have hc : col = c := by
          have := Option.some.inj h
          omega
        subst hc
        refine ⟨le_refl _, by rw [hco, hv], ?_⟩
        intro c' h1 h2
        omega
      · rw [if_neg hv] at h
        obtain ⟨h1, h2, h3⟩ := ih (col + 1) c h
        refine ⟨by omega, h2, ?_⟩
        intro c' hc1 hc2
        rcases Nat.eq_or_lt_of_le hc1 with he | hlt
        · exact ⟨v, he ▸ hco, hv⟩
        · exact h3 c' hlt hc2

lemma findFrom_complete (g : Grid) (name : String) :
    ∀ (fuel col c : Nat), col ≤ c → c - col < fuel →
      g HEADER_ROW c = some name →
      (∀ c', col ≤ c' → c' < c → ∃ v, g HEADER_ROW c' = some v ∧ v ≠ name) →
      findFrom g name fuel col = some c := by
  intro fuel
  induction fuel with
  | zero => intro col c h1 h2; omega
  | succ fuel ih =>
    intro col c h1 h2 h3 h4
    unfold findFrom
    rcases Nat.eq_or_lt_of_le h1 with he | hlt
    · subst he
      simp only [h3, eq_self_iff_true, if_true]
    · obtain ⟨v, hv, hvne⟩ := h4 col (le_refl _) hlt
      simp only [hv, if_neg hvne]
      exact ih (col + 1) c (by omega) (by omega) h3
        (fun c' hc1 hc2 => h4 c' (by omega) hc2)

lemma nextFrom_ge_two (g : Grid) :
    ∀ (fuel col lastCol : Nat), 1 ≤ lastCol → 2 ≤ col →
      2 ≤ nextFrom g fuel col lastCol := by
  intro fuel
  induction fuel with
  | zero => intro col lastCol h1 h2; unfold nextFrom; omega
  | succ fuel ih =>
    intro col lastCol h1 h2
    unfold nextFrom
    split
    · split <;> omega
    · exact ih (col + 1) col (by omega) (by omega)

/-- The `_get_next_column` scan returns the first blank header column,
    provided a blank header exists within fuel range. -/
lemma nextFrom_spec (g : Grid) :
    ∀ (fuel col lastCol k : Nat), lastCol + 1 = col → 1 ≤ lastCol →
      col ≤ k → k - col < fuel → g HEADER_ROW k = none →
      g HEADER_ROW (nextFrom g fuel col lastCol) = none ∧
      col ≤ nextFrom g fuel col lastCol ∧ nextFrom g fuel col lastCol ≤ k ∧
      (∀ c', col ≤ c' → c' < nextFrom g fuel col lastCol → g HEADER_ROW c' ≠ none) := by
  intro fuel
  induction fuel with
  | zero => intro col lastCol k h1 h2 h3 h4; omega
  | succ fuel ih =>
    intro col lastCol k h1 h2 h3 h4 h5
    unfold nextFrom
    split
    · rename_i hco
      have hres : (if lastCol > 1 then lastCol + 1 else 2) = col := by
        by_cases hl : lastCol > 1
        · rw [if_pos hl]; omega
        · rw [if_neg hl]; omega
      rw [hres]
      exact ⟨hco, le_refl _, h3, fun c' hc1 hc2 => by omega⟩
    · rename_i v hco
      have hk : col ≠ k := by
        intro he
        rw [he, h5] at hco
        exact Option.noConfusion hco
      obtain ⟨r1, r2, r3, r4⟩ := ih (col + 1) col k rfl (by omega) (by omega) (by omega) h5
      refine ⟨r1, by omega, r3, ?_⟩
      intro c' hc1 hc2
      rcases Nat.eq_or_lt_of_le hc1 with he | hlt
      · rw [← he, hco]; exact fun h => Option.noConfusion h
      · exact r4 c' hlt hc2

lemma findServerColumn_ge_two (g : Grid) (name : String) (c : Nat)
    (h : findServerColumn g name = some c) : 2 ≤ c :=
  (findFrom_sound g name MAXCOL 2 c h).1

lemma getNextColumn_ge_two (g : Grid) : 2 ≤ getNextColumn g :=
  nextFrom_ge_two g MAXCOL 2 1 (by omega) (by omega)

lemma resolveCol_ge_two (g : Grid) (name : String) : 2 ≤ (resolveCol g name).2 := by
  unfold resolveCol
  cases h : findServerColumn g name with
  | none => exact getNextColumn_ge_two g
  | some c => exact findServerColumn_ge_two g name c h

lemma colOneVal_none_of_lt (cs : Caps) (r : Nat) (h : r < FIRST_DATA_ROW) :
    colOneVal cs r = none := by
  have h1 := resourcesRow_ge cs
  have h2 := promptsRow_ge cs
  unfold colOneVal
  rw [secLabelVal_none_of_lt _ _ _ _ h, secLabelVal_none_of_lt _ _ _ _ (by omega),
    secLabelVal_none_of_lt _ _ _ _ (by omega)]
  rfl

lemma overlay_base_none (w : Option String) : overlay w none = w := by
  cases w <;> rfl

/-- `update_sheet` over a single discovered server is one loop step. -/
lemma updateSheet_singleton (g : Grid) (src : Source) (s0 : MCPServer)
    (h : src.servers = [s0]) :
    updateSheet (some g) src =
      ((step src (g, 0, []) s0).1, 1,
        (step src (g, 0, []) s0).2.1, (step src (g, 0, []) s0).2.2) := by
  unfold updateSheet ensureSheet
  rw [h]
  simp [List.foldl]

/-! ## Concrete fixtures used by witnesses and counterexamples -/

/-- An entirely blank sheet. -/
def blankGrid : Grid := fun _ _ => none

def srvA : MCPServer := { name := "A", status := "Unknown" }

def capX : MCPCapability := { name := "x", capability_type := "tool" }
def capY : MCPCapability := { name := "y", capability_type := "tool" }
def capT1 : MCPCapability := { name := "t1", capability_type := "tool" }
def capT2 : MCPCapability := { name := "t2", capability_type := "tool" }

/-- A source that discovers no servers. -/
def emptySource : Source :=
  { servers := []
  , check := fun n => .ok { name := n, status := "Unknown" }
  , caps := fun _ => .ok ⟨[], [], []⟩ }

/-- One connected server A exposing the single tool x. -/
def srcAx : Source :=
  { servers := [srvA]
  , check := fun n => .ok { name := n, status := "Connected" }
  , caps := fun _ => .ok ⟨[capX], [], []⟩ }

/-- A exposing tools x and y. -/
def srcAxy : Source := { srcAx with caps := fun _ => .ok ⟨[capX, capY], [], []⟩ }

/-- A exposing only tool y. -/
def srcAy : Source := { srcAx with caps := fun _ => .ok ⟨[capY], [], []⟩ }

/-- A connected with no capabilities at all. -/
def srcANoCaps : Source := { srcAx with caps := fun _ => .ok ⟨[], [], []⟩ }

/-- A connected but its capability query raises. -/
def srcARaise : Source := { srcAx with caps := fun _ => .error "boom" }

/-- Servers A (tool x) and B (tool y), both connected. -/
def srcAxBy : Source :=
  { servers := [srvA, { name := "B", status := "Unknown" }]
  , check := fun n => .ok { name := n, status := "Connected" }
  , caps := fun n => if n = "A" then .ok ⟨[capX], [], []⟩ else .ok ⟨[capY], [], []⟩ }

/-- The C5 scenario: A connected with 2 tools, B's capability query raises,
    C disconnected. -/
def srcABC : Source :=
  { servers := [srvA, { name := "B", status := "Unknown" }, { name := "C", status := "Unknown" }]
  , check := fun n => if n = "C" then .ok { name := n, status := "Disconnected" }
                      else .ok { name := n, status := "Connected" }
  , caps := fun n => if n = "B" then .error "boom" else .ok ⟨[capT1, capT2], [], []⟩ }

/-- A pre-existing grid with junk content below row 1 in (unheaded) column 2. -/
def junkGrid : Grid := fun r c => if r = 20 ∧ c = 2 then some "junk" else none

/-- A pre-existing grid whose header row has a gap: column 2 blank, server
    name "A" at column 3. -/
def gapGrid : Grid := fun r c => if r = 1 ∧ c = 3 then some "A" else none

/-- A grid with only the header cell "A" at column 2. -/
def headerGrid : Grid := fun r c => if r = 1 ∧ c = 2 then some "A" else none

/-- The grid of the C8 example: "TOOLS" at row 4, has-any marker at row 5,
    label "get_weather" at row 6, server "weather-mcp" at column 2. -/
def locGrid : Grid := fun r c =>
  if r = 1 ∧ c = 1 then some "Capability Type"
  else if r = 1 ∧ c = 2 then some "weather-mcp"
  else if r = 4 ∧ c = 1 then some "TOOLS"
  else if r = 5 ∧ c = 2 then some "✓"
  else if r = 6 ∧ c = 1 then some "get_weather"
  else if r = 6 ∧ c = 2 then some "✓"
  else none

/-! ## C7: empty-source behavior -/

/-- C7 (amended): when `discover_servers` returns an empty list,
`update_sheet` returns zero counts with the single error string
`"No MCP servers found"` (the code's exact string — not the spec's
`"no servers found"`) and leaves a pre-existing grid entirely unchanged. -/
theorem empty_source_refresh (g : Grid) (src : Source) (h : src.servers = []) :
    updateSheet (some g) src = (g, 0, 0, ["No MCP servers found"]) := by
  unfold updateSheet ensureSheet
  rw [h]
  simp

/-- Witness for C7 at a concrete grid and source. -/
theorem empty_source_refresh_witness :
    updateSheet (some blankGrid) emptySource = (blankGrid, 0, 0, ["No MCP servers found"]) :=
  empty_source_refresh blankGrid emptySource rfl

/-- C7 counterexample: the refresh result is not `(0, 0, ["no servers found"])`
as the claim literally states — the error string differs. -/
theorem empty_source_cex :
    (updateSheet (some blankGrid) emptySource).2 ≠ (0, 0, ["no servers found"]) := by
  decide

/-! ## C8: locator -/

/-- C8 (amended): `get_capability_at_cell` returns `none` for every cell whose
column-1 value is blank or empty (separator rows and the marker row of the
example), and on the example grid `locate(6,2)` is
`("weather-mcp", "tool", "get_weather")` while `locate(5,2)` is `none`.
(On a section-header row, whose column-1 value is the section label itself,
the locator returns the label as capability name rather than `none` — see the
counterexample.) -/
theorem locator_correctness_amended :
    (∀ (g : Grid) (row col : Nat), g row 1 = none ∨ g row 1 = some "" →
        getCapabilityAtCell g row col = none) ∧
    getCapabilityAtCell locGrid 6 2 = some ("weather-mcp", "tool", "get_weather") ∧
    getCapabilityAtCell locGrid 5 2 = none := by
  refine ⟨?_, by decide, by decide⟩
  intro g row col h
  unfold getCapabilityAtCell
  split
  · rfl
  · rename_i sn hh
    by_cases hsn : sn = ""
    · rw [if_pos hsn]
    · rw [if_neg hsn]
      rcases h with h | h <;> simp only [h, eq_self_iff_true, if_true]

/-- Witness for C8: a cell on the blank row 7 of the example grid. -/
theorem locator_correctness_amended_witness :
    getCapabilityAtCell locGrid 7 2 = none :=
  locator_correctness_amended.1 locGrid 7 2 (Or.inl (by decide))

/-- C8 counterexample: on the section-header row itself (column 1 holds
"TOOLS", a non-empty value), the locator does not return `none` — it returns
the section label as the capability name. -/
theorem locator_section_header_cex :
    locGrid 4 1 = some "TOOLS" ∧
    getCapabilityAtCell locGrid 4 2 = some ("weather-mcp", "tool", "TOOLS") ∧
    getCapabilityAtCell locGrid 4 2 ≠ none := by
  decide

/-! ## C5: per-server isolation -/

/-- C5 (amended): processing `[A(connected, 2 tools), B(capability query
raises), C(disconnected)]` yields `(3, 2, ["B: boom", "C: Connection failed"])`
— servers_connected is 2, not 1, because `update_sheet` increments the
connected count before the capability fetch — with A's column fully populated,
B's column untouched, and C given header and status only. -/
theorem isolation_amended :
    (updateSheet (some blankGrid) srcABC).2 = (3, 2, ["B: boom", "C: Connection failed"]) ∧
    (updateSheet (some blankGrid) srcABC).1 1 2 = some "A" ∧
    (updateSheet (some blankGrid) srcABC).1 2 2 = some "Connected" ∧
    (updateSheet (some blankGrid) srcABC).1 4 2 = some "✓" ∧
    (updateSheet (some blankGrid) srcABC).1 5 2 = some "✓" ∧
    (updateSheet (some blankGrid) srcABC).1 6 2 = some "✓" ∧
    (updateSheet (some blankGrid) srcABC).1 8 2 = some "-" ∧
    (updateSheet (some blankGrid) srcABC).1 10 2 = some "-" ∧
    (updateSheet (some blankGrid) srcABC).1 5 1 = some "t1" ∧
    (updateSheet (some blankGrid) srcABC).1 6 1 = some "t2" ∧
    (updateSheet (some blankGrid) srcABC).1 1 3 = some "C" ∧
    (updateSheet (some blankGrid) srcABC).1 2 3 = some "Disconnected" ∧
    (updateSheet (some blankGrid) srcABC).1 4 3 = none ∧
    (updateSheet (some blankGrid) srcABC).1 1 4 = none := by
  decide

/-- C5 counterexample: the claim's stated result `(3, 1, ...)` is wrong —
the connected count is 2 because B's status check succeeded before its
capability query raised. -/
theorem isolation_cex :
    (updateSheet (some blankGrid) srcABC).2 ≠ (3, 1, ["B: boom", "C: Connection failed"]) := by
  decide

/-! ## C2: row layout -/

/-- C2 (amended): the engine never inserts rows.  `_write_capability_section`
writes each server's section at fixed positions computed from that server's
own capability counts: the section label at `startRow`, the i-th capability
label at `startRow + 1 + i` (overwriting any different pre-existing label at
that row), and it touches no other column-1 row.  A (section, name) pair keeps
its row only if every later server write at that row carries the same label. -/
theorem row_append_only_amended (g : Grid) (col startRow : Nat) (hcol : 2 ≤ col)
    (name : String) (caps : List MCPCapability) :
    (writeCapabilitySection g col startRow name caps).2 = startRow + secLen caps ∧
    (writeCapabilitySection g col startRow name caps).1 startRow 1 = some name ∧
    (∀ i (hi : i < caps.length),
      (writeCapabilitySection g col startRow name caps).1 (startRow + 1 + i) 1 =
        some (caps.get ⟨i, hi⟩).name) ∧
    (∀ r, r ≠ startRow → (r < startRow + 1 ∨ startRow + 1 + caps.length ≤ r) →
      (writeCapabilitySection g col startRow name caps).1 r 1 = g r 1) := by
  have hc1 : ¬ ((1 : Nat) = col) := by omega
  refine ⟨writeCapabilitySection_snd g col startRow name caps, ?_, ?_, ?_⟩
  · rw [writeCapabilitySection_apply, if_neg hc1, if_pos rfl]
    unfold secLabelVal
    rw [if_pos rfl, overlay_some]
  · intro i hi
    rw [writeCapabilitySection_apply, if_neg hc1, if_pos rfl]
    unfold secLabelVal
    have h1 : ¬ (startRow + 1 + i = startRow) := by omega
    have h2 : startRow + 1 ≤ startRow + 1 + i := by omega
    rw [if_neg h1, if_pos h2]
    have h3 : startRow + 1 + i - (startRow + 1) = i := by omega
    rw [h3, List.get?_eq_get hi]
    rfl
  · intro r hr hout
    rw [writeCapabilitySection_apply, if_neg hc1, if_pos rfl]
    unfold secLabelVal
    rw [if_neg hr]
    rcases hout with h | h
    · rw [if_neg (by omega)]
      rfl
    · by_cases hge : startRow + 1 ≤ r
      · rw [if_pos hge, List.get?_eq_none.mpr (by omega)]
        rfl
      · rw [if_neg hge]
        rfl

/-- Witness for C2 (amended) at a concrete section write. -/
theorem row_append_only_amended_witness :
    (writeCapabilitySection blankGrid 2 4 "TOOLS" [capX]).1 4 1 = some "TOOLS" :=
  (row_append_only_amended blankGrid 2 4 (by decide) "TOOLS" [capX]).2.1

/-- C2 counterexample: after A (tool x) is written, a refresh adding server B
(tool y) overwrites the label row 5 from "x" to "y" in place — the pair
(tool, x) loses its row, and y is not inserted at row 6 (nothing shifts). -/
theorem row_append_only_cex :
    (updateSheet (some blankGrid) srcAx).1 5 1 = some "x" ∧
    (updateSheet (some (updateSheet (some blankGrid) srcAx).1) srcAxBy).1 5 1 = some "y" ∧
    (updateSheet (some (updateSheet (some blankGrid) srcAx).1) srcAxBy).1 6 1 = none := by
  decide

/-! ## C4: stale-mark elimination -/

/-- C4 (amended): when a connected server's previously-assigned column is
reused, the whole column from the status row down is cleared and rewritten,
so after the refresh every cell of that column (rows 2..MAXROW) holds exactly
what the current rewrite produces (`colVal`) — a stale mark from the prior
refresh never survives as itself.  A cell at a removed capability's old row
is blank unless the rewrite assigns that row to another capability; the label
row in column 1 may be relabeled (see the counterexample). -/
theorem stale_mark_elimination_amended (g : Grid) (src : Source) (s0 s : MCPServer)
    (caps : Caps) (col : Nat)
    (h1 : src.servers = [s0]) (h2 : src.check s0.name = .ok s)
    (h3 : s.status = "Connected") (h4 : src.caps s.name = .ok caps)
    (h5 : findServerColumn g s.name = some col) :
    ∀ r, 2 ≤ r → r ≤ MAXROW →
      (updateSheet (some g) src).1 r col = colVal s.status caps r := by
  intro r hr2 hrM
  have hcol : 2 ≤ col := findServerColumn_ge_two g s.name col h5
  rw [updateSheet_singleton g src s0 h1]
  unfold step
  simp only [h2, h3, eq_self_iff_true, if_true, h4]
  unfold resolveCol
  simp only [h5]
  rw [writeServerColumn_apply _ hcol]
  have hr1 : ¬ (r = HEADER_ROW) := by unfold HEADER_ROW; omega
  rw [if_pos rfl, if_neg hr1]
  have hcl : clearColumn g col r col = none := by
    unfold clearColumn
    rw [if_pos ⟨rfl, by unfold STATUS_ROW; omega, hrM⟩]
  rw [hcl, overlay_base_none, h3]

/-- Witness for C4: server A found at column 2, row 10 of the reused column
equals the rewrite description. -/
theorem stale_mark_elimination_amended_witness :
    (updateSheet (some headerGrid) srcAy).1 10 2 =
      colVal "Connected" { tools := [capY], resources := [], prompts := [] } 10 :=
  stale_mark_elimination_amended headerGrid srcAy srvA
    { name := "A", status := "Connected" } { tools := [capY], resources := [], prompts := [] }
    2 rfl rfl rfl rfl (by decide) 10 (by decide) (by decide)

/-- C4 counterexample: refresh 1 gives A tools [x, y] (x marked at row 5);
refresh 2's source returns only [y].  The claim says the cell at x's row is
blank and x's label row is unchanged — but the code relabels row 5 to y and
writes a mark there: the cell is "✓", and label "x" is gone. -/
theorem stale_mark_elimination_cex :
    (updateSheet (some blankGrid) srcAxy).1 5 1 = some "x" ∧
    (updateSheet (some blankGrid) srcAxy).1 5 2 = some "✓" ∧
    (updateSheet (some (updateSheet (some blankGrid) srcAxy).1) srcAy).1 5 2 = some "✓" ∧
    (updateSheet (some (updateSheet (some blankGrid) srcAxy).1) srcAy).1 5 1 = some "y" := by
  decide

/-! ## C6: no half-written column on failure -/

/-- C6 (amended): a server whose processing raises (connection check or
capability query) causes no grid writes at all — the refresh leaves the whole
grid exactly as it was, which also means a column retaining old data keeps it
(see the counterexample); a disconnected server's column gets exactly its
header and status cells, everything below cleared when the column is reused. -/
theorem failed_server_no_partial_writes :
    (∀ (g : Grid) (src : Source) (s0 : MCPServer) (e : String),
        src.servers = [s0] → src.check s0.name = .error e →
        (updateSheet (some g) src).1 = g) ∧
    (∀ (g : Grid) (src : Source) (s0 s : MCPServer) (e : String),
        src.servers = [s0] → src.check s0.name = .ok s → s.status = "Connected" →
        src.caps s.name = .error e →
        (updateSheet (some g) src).1 = g) ∧
    (∀ (g : Grid) (src : Source) (s0 s : MCPServer) (col : Nat),
        src.servers = [s0] → src.check s0.name = .ok s → s.status ≠ "Connected" →
        findServerColumn g s.name = some col →
        (updateSheet (some g) src).1 HEADER_ROW col = some s.name ∧
        (updateSheet (some g) src).1 STATUS_ROW col = some s.status ∧
        (∀ r, 3 ≤ r → r ≤ MAXROW → (updateSheet (some g) src).1 r col = none)) := by
  refine ⟨?_, ?_, ?_⟩
  · intro g src s0 e h1 h2
    rw [updateSheet_singleton g src s0 h1]
    unfold step
    simp only [h2]
  · intro g src s0 s e h1 h2 h3 h4
    rw [updateSheet_singleton g src s0 h1]
    unfold step
    simp only [h2, h3, eq_self_iff_true, if_true, h4]
  · intro g src s0 s col h1 h2 h3 h4
    rw [updateSheet_singleton g src s0 h1]
    unfold step
    simp only [h2, h3, if_false]
    unfold resolveCol
    simp only [h4]
    refine ⟨?_, ?_, ?_⟩
    · simp [setCell, HEADER_ROW, STATUS_ROW]
    · simp [setCell]
    · intro r hr3 hrM
      have hrs : ¬ (r = STATUS_ROW) := by unfold STATUS_ROW; omega
      have hrh : ¬ (r = HEADER_ROW) := by unfold HEADER_ROW; omega
      have hs2 : STATUS_ROW ≤ r := by unfold STATUS_ROW; omega
      simp [setCell, clearColumn, hrs, hrh, hs2, hrM]

/-- Witness for C6: a raising capability query leaves the junk grid
untouched, and a disconnected server found at column 2 is written
header+status with row 10 blank. -/
theorem failed_server_no_partial_writes_witness :
    (updateSheet (some junkGrid) srcARaise).1 = junkGrid ∧
    (updateSheet (some headerGrid)
      { srcAx with check := fun n => .ok { name := n, status := "Disconnected" } }).1 10 2 =
      none := by
  constructor
  · exact failed_server_no_partial_writes.2.1 junkGrid srcARaise srvA
      { name := "A", status := "Connected" } "boom" rfl rfl rfl rfl
  · exact (failed_server_no_partial_writes.2.2 headerGrid
      { srcAx with check := fun n => .ok { name := n, status := "Disconnected" } } srvA
      { name := "A", status := "Disconnected" } 2 rfl rfl (by decide) (by decide)).2.2
      10 (by decide) (by decide)

/-- C6 counterexample: refresh 1 populates A's column (mark at row 5); in
refresh 2 A's capability query raises.  The refresh reports the failure, yet
A's column still contains the old capability mark — more than header+status. -/
theorem failed_server_cex :
    (updateSheet (some (updateSheet (some blankGrid) srcAxy).1) srcARaise).2.2.2 =
      ["A: boom"] ∧
    (updateSheet (some (updateSheet (some blankGrid) srcAxy).1) srcARaise).1 5 2 =
      some "✓" := by
  decide

/-! ## C10: discover_servers is total and yields only "Unknown" -/

lemma serversOfJson_unknown (j : Json) (s : MCPServer) (h : s ∈ serversOfJson j) :
    s.status = "Unknown" := by
  cases j with
  | arr xs =>
    simp only [serversOfJson, List.mem_filterMap] at h
    obtain ⟨x, _, hfx⟩ := h
    cases x with
    | obj kvs =>
      simp only [Option.some.injEq] at hfx
      rw [← hfx]
    | str v =>
      simp only [Option.some.injEq] at hfx
      rw [← hfx]
    | null => exact absurd hfx (by simp)
    | bool b => exact absurd hfx (by simp)
    | num n => exact absurd hfx (by simp)
    | arr ys => exact absurd hfx (by simp)
  | obj kvs =>
    simp only [serversOfJson, List.mem_map] at h
    obtain ⟨kv, _, hkv⟩ := h
    rw [← hkv]
  | null => exact absurd h (by simp [serversOfJson])
  | bool b => exact absurd h (by simp [serversOfJson])
  | num n => exact absurd h (by simp [serversOfJson])
  | str v => exact absurd h (by simp [serversOfJson])

lemma parseTextLines_unknown (raw : String) (s : MCPServer)
    (h : s ∈ parseTextLines raw) : s.status = "Unknown" := by
  unfold parseTextLines at h
  rw [List.mem_filterMap] at h
  obtain ⟨line0, _, hf⟩ := h
  simp only at hf
  split at hf
  · exact absurd hf (by simp)
  · split at hf
    · exact absurd hf (by simp)
    · split at hf
      · exact absurd hf (by simp)
      · split at hf
        · exact absurd hf (by simp)
        · simp only [Option.some.injEq] at hf
          rw [← hf]

/-- C10: `discover_servers` is total over source outcomes — every CLI failure
(non-zero exit, timeout, missing executable, other exception) and a
"No MCP servers found" response yield the empty list rather than raising —
and every server it returns has status "Unknown", a value outside the
documented {Connected, Disconnected, Error} status set. -/
theorem discover_servers_total_unknown :
    (∀ (cli : String) (t : Nat),
        discoverServers (executeCommand cli t .timedOut) = [] ∧
        discoverServers (executeCommand cli t .notFound) = [] ∧
        (∀ m, discoverServers (executeCommand cli t (.raised m)) = []) ∧
        (∀ (rc : Int) (out err : String) (p : Option Json), rc ≠ 0 →
          discoverServers (executeCommand cli t (.completed rc out err p)) = [])) ∧
    (∀ (data : Json) (raw : String), containsSubstr raw "No MCP servers found" = true →
        discoverServers (.ok data raw) = []) ∧
    (∀ (res : CmdResult) (s : MCPServer), s ∈ discoverServers res → s.status = "Unknown") ∧
    ("Unknown" ≠ "Connected" ∧ "Unknown" ≠ "Disconnected" ∧ "Unknown" ≠ "Error") := by
  refine ⟨?_, ?_, ?_, by decide⟩
  · intro cli t
    refine ⟨rfl, rfl, fun m => rfl, ?_⟩
    intro rc out err p hrc
    simp only [executeCommand]
    rw [if_neg hrc]
    rfl
  · intro data raw h
    unfold discoverServers
    simp only [h, if_true]
  · intro res s hs
    cases res with
    | err e => exact absurd hs (by simp [discoverServers])
    | ok data raw =>
      simp only [discoverServers] at hs
      by_cases h1 : containsSubstr raw "No MCP servers found" = true
      · rw [if_pos h1] at hs
        exact absurd hs (List.not_mem_nil s)
      · rw [if_neg h1] at hs
        by_cases h2 : data.truthy = true
        · rw [if_pos h2] at hs
          exact serversOfJson_unknown data s hs
        · rw [if_neg h2] at hs
          exact parseTextLines_unknown raw s hs

/-- Witness for C10 at a concrete failing CLI outcome. -/
theorem discover_servers_total_unknown_witness :
    discoverServers (executeCommand "manus-mcp-cli" 30 (.completed 1 "out" "err" none)) = [] :=
  (discover_servers_total_unknown.1 "manus-mcp-cli" 30).2.2.2 1 "out" "err" none (by decide)

/-! ## C9: connection check statuses and status cells -/

lemma colOneVal_at_status_row (cs : Caps) : colOneVal cs STATUS_ROW = none :=
  colOneVal_none_of_lt cs STATUS_ROW (by decide)

/-- The three grid outcomes of one loop step: unchanged (an exception was
    raised), a full column write (connected), or header+status only. -/
lemma step_grid_cases (src : Source) (st : Grid × Nat × List String) (s0 : MCPServer) :
    (step src st s0).1 = st.1 ∨
    (∃ s caps, src.check s0.name = .ok s ∧ s.status = "Connected" ∧
      src.caps s.name = .ok caps ∧
      (step src st s0).1 =
        writeServerColumn (resolveCol st.1 s.name).1 (resolveCol st.1 s.name).2 s caps) ∨
    (∃ s, src.check s0.name = .ok s ∧ s.status ≠ "Connected" ∧
      (step src st s0).1 =
        setCell (setCell (resolveCol st.1 s.name).1 HEADER_ROW (resolveCol st.1 s.name).2
          s.name) STATUS_ROW (resolveCol st.1 s.name).2 s.status) := by
  rcases hchk : src.check s0.name with e | s
  · unfold step
    simp only [hchk]
    exact Or.inl trivial
  · rcases hcaps : src.caps s.name with e | caps
    · unfold step
      simp only [hchk]
      by_cases hst : s.status = "Connected"
      · rw [if_pos hst]
        simp only [hcaps]
        exact Or.inl trivial
      · rw [if_neg hst]
        exact Or.inr (Or.inr ⟨s, rfl, hst, rfl⟩)
    · unfold step
      simp only [hchk]
      by_cases hst : s.status = "Connected"
      · rw [if_pos hst]
        simp only [hcaps]
        exact Or.inr (Or.inl ⟨s, caps, rfl, hst, hcaps, rfl⟩)
      · rw [if_neg hst]
        exact Or.inr (Or.inr ⟨s, rfl, hst, rfl⟩)

/-- `resolveCol` leaves a cell alone or blanks it. -/
lemma resolveCol_fst_apply (g : Grid) (name : String) (r' c' : Nat) :
    (resolveCol g name).1 r' c' = g r' c' ∨ (resolveCol g name).1 r' c' = none := by
  unfold resolveCol
  cases hf : findServerColumn g name with
  | none => exact Or.inl rfl
  | some c0 =>
    show clearColumn g c0 r' c' = g r' c' ∨ clearColumn g c0 r' c' = none
    unfold clearColumn
    split
    · exact Or.inr rfl
    · exact Or.inl rfl

/-- One refresh step never writes "Error" into the status row, provided the
    source's connection check never returns that status. -/
lemma step_status_row_no_error (src : Source)
    (hsrc : ∀ n s, src.check n = .ok s → s.status ≠ "Error") :
    ∀ (st : Grid × Nat × List String) (s0 : MCPServer) (c : Nat),
      st.1 STATUS_ROW c ≠ some "Error" →
      (step src st s0).1 STATUS_ROW c ≠ some "Error" := by
  intro st s0 c hc
  have hbase : ∀ c', st.1 STATUS_ROW c' ≠ some "Error" →
      (resolveCol st.1 s0.name).1 STATUS_ROW c' ≠ some "Error" := by
    intro c' h
    rcases resolveCol_fst_apply st.1 s0.name STATUS_ROW c' with he | he <;> rw [he]
    · exact h
    · exact fun hcon => Option.noConfusion hcon
  rcases step_grid_cases src st s0 with hg | ⟨s, caps, hchk, hst, hcaps, hg⟩ | ⟨s, hchk, hst, hg⟩
  · rw [hg]
    exact hc
  · rw [hg, writeServerColumn_apply _ (resolveCol_ge_two st.1 s.name)]
    have hbase2 : ∀ c', st.1 STATUS_ROW c' ≠ some "Error" →
        (resolveCol st.1 s.name).1 STATUS_ROW c' ≠ some "Error" := by
      intro c' h
      rcases resolveCol_fst_apply st.1 s.name STATUS_ROW c' with he | he <;> rw [he]
      · exact h
      · exact fun hcon => Option.noConfusion hcon
    by_cases hcc : c = (resolveCol st.1 s.name).2
    · rw [if_pos hcc, if_neg (by decide : ¬ (STATUS_ROW = HEADER_ROW))]
      unfold colVal
      rw [if_pos rfl, overlay_some]
      intro hcon
      exact (hsrc s0.name s hchk) (Option.some.inj hcon)
    · rw [if_neg hcc]
      by_cases hc1 : c = 1
      · rw [if_pos hc1, colOneVal_at_status_row, overlay_none]
        exact hbase2 c hc
      · rw [if_neg hc1]
        exact hbase2 c hc
  · rw [hg]
    unfold setCell
    by_cases hcc : c = (resolveCol st.1 s.name).2
    · rw [if_pos ⟨rfl, hcc⟩]
      intro hcon
      exact (hsrc s0.name s hchk) (Option.some.inj hcon)
    · rw [if_neg (fun h => hcc h.2),
        if_neg (fun h => (by decide : ¬ (STATUS_ROW = HEADER_ROW)) h.1)]
      rcases resolveCol_fst_apply st.1 s.name STATUS_ROW c with he | he <;> rw [he]
      · exact hc
      · exact fun hcon => Option.noConfusion hcon

lemma foldl_status_row_no_error (src : Source)
    (hsrc : ∀ n s, src.check n = .ok s → s.status ≠ "Error") :
    ∀ (ss : List MCPServer) (st : Grid × Nat × List String) (c : Nat),
      st.1 STATUS_ROW c ≠ some "Error" →
      (List.foldl (step src) st ss).1 STATUS_ROW c ≠ some "Error" := by
  intro ss
  induction ss with
  | nil => intro st c hc; exact hc
  | cons s0 rest ih =>
    intro st c hc
    exact ih (step src st s0) c (step_status_row_no_error src hsrc st s0 c hc)

/-- C9: `check_server_connection` always returns a server whose name is the
input name and whose status is "Connected" or "Disconnected" — never "Error"
— and consequently a refresh whose source's checks never return "Error"
never writes "Error" into any status-row cell that did not already hold it. -/
theorem check_status_and_refresh_no_error :
    (∀ (name : String) (res : CmdResult),
        (checkServerConnection name res).name = name ∧
        ((checkServerConnection name res).status = "Connected" ∨
         (checkServerConnection name res).status = "Disconnected")) ∧
    (∀ (wb : Option Grid) (src : Source),
        (∀ n s, src.check n = .ok s → s.status ≠ "Error") →
        ∀ c, (ensureSheet wb) STATUS_ROW c ≠ some "Error" →
          (updateSheet wb src).1 STATUS_ROW c ≠ some "Error") := by
  constructor
  · intro name res
    cases res with
    | ok d r => exact ⟨rfl, Or.inl rfl⟩
    | err e => exact ⟨rfl, Or.inr rfl⟩
  · intro wb src hsrc c hc
    unfold updateSheet
    by_cases he : src.servers.isEmpty
    · rw [if_pos he]
      exact hc
    · rw [if_neg he]
      exact foldl_status_row_no_error src hsrc src.servers (ensureSheet wb, 0, []) c hc

/-! ## C1: column stability -/

/-- `resolveCol` never changes the header row (`_clear_column` starts at the
    status row). -/
lemma resolveCol_fst_header (g : Grid) (name : String) (c' : Nat) :
    (resolveCol g name).1 HEADER_ROW c' = g HEADER_ROW c' := by
  unfold resolveCol
  cases hf : findServerColumn g name with
  | none => rfl
  | some c0 =>
    show clearColumn g c0 HEADER_ROW c' = g HEADER_ROW c'
    unfold clearColumn
    rw [if_neg (fun h => (by decide : ¬ (STATUS_ROW ≤ HEADER_ROW)) h.2.1)]

/-- Where a step's server lands: at a column whose header already holds the
    server's name, or at a blank-header column that is at most `B`. -/
lemma resolveCol_snd_cases (g : Grid) (name : String) (B : Nat)
    (hB : ∀ c, B ≤ c → g HEADER_ROW c = none) (hB2 : 2 ≤ B) (hBM : B ≤ MAXCOL) :
    (g HEADER_ROW (resolveCol g name).2 = some name ∨
      g HEADER_ROW (resolveCol g name).2 = none) ∧
    (resolveCol g name).2 ≤ B := by
  unfold resolveCol
  cases hf : findServerColumn g name with
  | some c0 =>
    show (g HEADER_ROW c0 = some name ∨ g HEADER_ROW c0 = none) ∧ c0 ≤ B
    obtain ⟨_, hv, _⟩ := findFrom_sound g name MAXCOL 2 c0 hf
    have hlt : c0 < B := by
      by_contra hcon
      rw [hB c0 (by omega)] at hv
      exact Option.noConfusion hv
    exact ⟨Or.inl hv, by omega⟩
  | none =>
    show (g HEADER_ROW (getNextColumn g) = some name ∨
        g HEADER_ROW (getNextColumn g) = none) ∧ getNextColumn g ≤ B
    have hM2 : 2 ≤ MAXCOL := by decide
    obtain ⟨r1, _, r3, _⟩ := nextFrom_spec g MAXCOL 2 1 B rfl (by omega) hB2
      (by omega) (hB B (le_refl B))
    exact ⟨Or.inr r1, r3⟩

/-- One step preserves every non-blank header value and extends the blank
    region bound by at most one. -/
lemma step_header (src : Source) (st : Grid × Nat × List String) (s0 : MCPServer)
    (B : Nat) (hB : ∀ c, B ≤ c → st.1 HEADER_ROW c = none) (hB2 : 2 ≤ B)
    (hBM : B ≤ MAXCOL) :
    (∀ c v, st.1 HEADER_ROW c = some v → (step src st s0).1 HEADER_ROW c = some v) ∧
    (∀ c, B + 1 ≤ c → (step src st s0).1 HEADER_ROW c = none) := by
  rcases step_grid_cases src st s0 with hg | ⟨s, _, _, _, _, hg⟩ | ⟨s, _, _, hg⟩
  · rw [hg]
    exact ⟨fun c v hv => hv, fun c hc => hB c (by omega)⟩
  · obtain ⟨hdic, hle⟩ := resolveCol_snd_cases st.1 s.name B hB hB2 hBM
    have happ : ∀ c, (step src st s0).1 HEADER_ROW c =
        if c = (resolveCol st.1 s.name).2 then some s.name else st.1 HEADER_ROW c := by
      intro c
      rw [hg, writeServerColumn_apply _ (resolveCol_ge_two st.1 s.name)]
      by_cases hcc : c = (resolveCol st.1 s.name).2
      · rw [if_pos hcc, if_pos hcc, if_pos rfl]
      · rw [if_neg hcc, if_neg hcc]
        by_cases hc1 : c = 1
        · rw [if_pos hc1, colOneVal_none_of_lt _ _ (by decide), overlay_none,
            resolveCol_fst_header]
        · rw [if_neg hc1, resolveCol_fst_header]
    constructor
    · intro c v hv
      rw [happ]
      by_cases hcc : c = (resolveCol st.1 s.name).2
      · rw [if_pos hcc]
        rcases hdic with hd | hd
        · rw [hcc] at hv
          rw [hv] at hd
          rw [Option.some.inj hd]
        · rw [hcc] at hv
          rw [hv] at hd
          exact absurd hd (by simp)
      · rw [if_neg hcc]
        exact hv
    · intro c hc
      rw [happ, if_neg (by omega)]
      exact hB c (by omega)
  · obtain ⟨hdic, hle⟩ := resolveCol_snd_cases st.1 s.name B hB hB2 hBM
    have happ : ∀ c, (step src st s0).1 HEADER_ROW c =
        if c = (resolveCol st.1 s.name).2 then some s.name else st.1 HEADER_ROW c := by
      intro c
      rw [hg]
      unfold setCell
      rw [if_neg (fun h => (by decide : ¬ (HEADER_ROW = STATUS_ROW)) h.1)]
      by_cases hcc : c = (resolveCol st.1 s.name).2
      · rw [if_pos ⟨rfl, hcc⟩, if_pos hcc]
      · rw [if_neg (fun h => hcc h.2), if_neg hcc, resolveCol_fst_header]
    constructor
    · intro c v hv
      rw [happ]
      by_cases hcc : c = (resolveCol st.1 s.name).2
      · rw [if_pos hcc]
        rcases hdic with hd | hd
        · rw [hcc] at hv
          rw [hv] at hd
          rw [Option.some.inj hd]
        · rw [hcc] at hv
          rw [hv] at hd
          exact absurd hd (by simp)
      · rw [if_neg hcc]
        exact hv
    · intro c hc
      rw [happ, if_neg (by omega)]
      exact hB c (by omega)

/-- The whole refresh loop preserves non-blank header values. -/
lemma foldl_header (src : Source) :
    ∀ (ss : List MCPServer) (st : Grid × Nat × List String) (B : Nat),
      (∀ c, B ≤ c → st.1 HEADER_ROW c = none) → 2 ≤ B → B + ss.length ≤ MAXCOL →
      (∀ c v, st.1 HEADER_ROW c = some v →
        (List.foldl (step src) st ss).1 HEADER_ROW c = some v) ∧
      (∀ c, B + ss.length ≤ c → (List.foldl (step src) st ss).1 HEADER_ROW c = none) := by
  intro ss
  induction ss with
  | nil =>
    intro st B hB hB2 hroom
    exact ⟨fun c v hv => hv, fun c hc => hB c (by omega)⟩
  | cons s0 rest ih =>
    intro st B hB hB2 hroom
    have hBM : B ≤ MAXCOL := by
      have := hroom
      simp only [List.length_cons] at this
      omega
    obtain ⟨p1, p2⟩ := step_header src st s0 B hB hB2 hBM
    have hlen : B + 1 + rest.length ≤ MAXCOL := by
      have := hroom
      simp only [List.length_cons] at this
      omega
    obtain ⟨q1, q2⟩ := ih (step src st s0) (B + 1) p2 (by omega) hlen
    constructor
    · intro c v hv
      exact q1 c v (p1 c v hv)
    · intro c hc
      apply q2
      simp only [List.length_cons] at hc
      omega

/-- C1 (amended): if the header row is gap-free up to column C — columns
2..C-1 all non-blank and none equal to the server's name — with the name at
column C and the header row blank from some bound B on (with room for the
discovered servers within the sheet), then the server resolves to column C
before the refresh and still resolves to column C after running `refresh()`
with the server present: its column assignment never changes.  (Without the
gap-free premise the assignment can move — see the counterexample.) -/
theorem column_stability_amended (g : Grid) (src : Source) (name : String) (C B : Nat)
    (hC2 : 2 ≤ C)
    (hname : g HEADER_ROW C = some name)
    (hleft : ∀ c, 2 ≤ c → c < C → ∃ v, g HEADER_ROW c = some v ∧ v ≠ name)
    (hB : ∀ c, B ≤ c → g HEADER_ROW c = none)
    (hB2 : 2 ≤ B)
    (hroom : B + src.servers.length ≤ MAXCOL)
    (hpresent : ∃ s0, s0 ∈ src.servers ∧ s0.name = name) :
    findServerColumn g name = some C ∧
    findServerColumn (updateSheet (some g) src).1 name = some C := by
  have hM2 : 2 ≤ MAXCOL := by decide
  have hCB : C < B := by
    by_contra hcon
    rw [hB C (by omega)] at hname
    exact Option.noConfusion hname
  have hfuel : C - 2 < MAXCOL := by omega
  have hfind : findServerColumn g name = some C :=
    findFrom_complete g name MAXCOL 2 C hC2 hfuel hname
      (fun c' h1 h2 => hleft c' h1 h2)
  refine ⟨hfind, ?_⟩
  unfold updateSheet ensureSheet
  by_cases he : src.servers.isEmpty
  · rw [if_pos he]
    exact hfind
  · rw [if_neg he]
    obtain ⟨f1, _⟩ := foldl_header src src.servers (g, 0, []) B hB hB2 hroom
    apply findFrom_complete _ name MAXCOL 2 C hC2 hfuel
    · exact f1 C name hname
    · intro c' h1 h2
      obtain ⟨v, hv, hvne⟩ := hleft c' h1 h2
      exact ⟨v, f1 c' v hv, hvne⟩

/-- A pre-existing grid with two headers: "X" at column 2, "A" at column 3. -/
def twoHeaderGrid : Grid := fun r c =>
  if r = 1 ∧ c = 2 then some "X"
  else if r = 1 ∧ c = 3 then some "A"
  else none

/-- Witness for C1: server "A" assigned column 3 of a gap-free header row
keeps column 3 across a refresh. -/
theorem column_stability_amended_witness :
    findServerColumn (updateSheet (some twoHeaderGrid) srcANoCaps).1 "A" = some 3 :=
  (column_stability_amended twoHeaderGrid srcANoCaps "A" 3 4 (by decide) (by decide)
    (fun c h2 h3 => by
      have hc : c = 2 := by omega
      subst hc
      exact ⟨"X", by decide, by decide⟩)
    (fun c h4 => by
      unfold twoHeaderGrid
      rw [if_neg (by omega), if_neg (by omega)])
    (by decide) (by decide)
    ⟨srvA, by decide, rfl⟩).2

/-- C1 counterexample: with a gap in the header row before the server's
column (column 2 blank, "A" at column 3), the scan misses the assignment and
the refresh writes "A" into column 2 instead — the column assignment moves,
refuting the claim as stated. -/
theorem column_stability_cex :
    gapGrid HEADER_ROW 3 = some "A" ∧
    findServerColumn (updateSheet (some gapGrid) srcANoCaps).1 "A" = some 2 ∧
    (updateSheet (some gapGrid) srcANoCaps).1 STATUS_ROW 2 = some "Connected" ∧
    (updateSheet (some gapGrid) srcANoCaps).1 STATUS_ROW 3 = none := by
  decide

/-! ## C3: idempotence of refresh

The grid effect of one loop step depends only on the source's answers for
the processed server (its "action") and on where the server's column
resolves.  The lemmas below characterize both runs of a double refresh. -/

/-- What the source answers determine for one server: `none` when an
    exception is raised (check or capability query), `some (s, none)` for a
    not-connected server, `some (s, some caps)` for a connected one. -/
def action (src : Source) (s0 : MCPServer) : Option (MCPServer × Option Caps) :=
  match src.check s0.name with
  | .error _ => none
  | .ok s =>
    if s.status = "Connected" then
      match src.caps s.name with
      | .error _ => none
      | .ok caps => some (s, some caps)
    else some (s, none)

/-- Cell content of a freshly painted column at row `r ≥ 2`. -/
def colPaint (s : MCPServer) (oc : Option Caps) (r : Nat) : Option String :=
  match oc with
  | some caps => colVal s.status caps r
  | none => if r = STATUS_ROW then some s.status else none

/-- What one step writes into column 1 at row `r`. -/
def colOneWriteOf (src : Source) (s0 : MCPServer) (r : Nat) : Option String :=
  match action src s0 with
  | some (_, some caps) => colOneVal caps r
  | _ => none

/-- The step's grid, keyed on the server's action. -/
lemma step_grid_eq (src : Source) (st : Grid × Nat × List String) (s0 : MCPServer) :
    (step src st s0).1 =
      match action src s0 with
      | none => st.1
      | some (s, some caps) =>
        writeServerColumn (resolveCol st.1 s.name).1 (resolveCol st.1 s.name).2 s caps
      | some (s, none) =>
        setCell (setCell (resolveCol st.1 s.name).1 HEADER_ROW (resolveCol st.1 s.name).2
          s.name) STATUS_ROW (resolveCol st.1 s.name).2 s.status := by
  rcases hchk : src.check s0.name with e | s
  · unfold step action
    simp only [hchk]
  · rcases hcaps : src.caps s.name with e | caps
    · unfold step action
      simp only [hchk]
      by_cases hst : s.status = "Connected"
      · rw [if_pos hst, if_pos hst]
        simp only [hcaps]
      · rw [if_neg hst, if_neg hst]
    · unfold step action
      simp only [hchk]
      by_cases hst : s.status = "Connected"
      · rw [if_pos hst, if_pos hst]
        simp only [hcaps]
      · rw [if_neg hst, if_neg hst]

/-- `findFrom` reads only the header row. -/
lemma findFrom_congr (g1 g2 : Grid) (hh : ∀ c, g1 HEADER_ROW c = g2 HEADER_ROW c)
    (name : String) : ∀ (fuel col : Nat),
      findFrom g1 name fuel col = findFrom g2 name fuel col := by
  intro fuel
  induction fuel with
  | zero => intro col; rfl
  | succ fuel ih =>
    intro col
    unfold findFrom
    rw [hh col]
    cases g2 HEADER_ROW col with
    | none => rfl
    | some v =>
      show (if v = name then some col else findFrom g1 name fuel (col + 1)) =
        (if v = name then some col else findFrom g2 name fuel (col + 1))
      by_cases hv : v = name
      · rw [if_pos hv, if_pos hv]
      · rw [if_neg hv, if_neg hv, ih]

/-- A failed scan means no column holding the name is reachable through a
    run of non-blank header cells. -/
lemma findFrom_none_no_match (g : Grid) (name : String) :
    ∀ (fuel col c' : Nat), findFrom g name fuel col = none → col ≤ c' →
      c' - col < fuel → (∀ c'', col ≤ c'' → c'' < c' → g HEADER_ROW c'' ≠ none) →
      g HEADER_ROW c' ≠ some name := by
  intro fuel
  induction fuel with
  | zero => intro col c' h1 h2 h3; omega
  | succ fuel ih =>
    intro col c' h1 h2 h3 h4
    unfold findFrom at h1
    split at h1
    · rename_i hco
      rcases Nat.eq_or_lt_of_le h2 with he | hlt
      · rw [← he, hco]
        exact fun h => Option.noConfusion h
      · exact absurd hco (h4 col (le_refl _) hlt)
    · rename_i v hco
      by_cases hv : v = name
      · rw [if_pos hv] at h1
        exact absurd h1 (by simp)
      · rw [if_neg hv] at h1
        rcases Nat.eq_or_lt_of_le h2 with he | hlt
        · rw [← he, hco]
          intro hcon
          exact hv (Option.some.inj hcon)
        · refine ih (col + 1) c' h1 (by omega) (by omega) ?_
          intro c'' hc1 hc2
          exact h4 c'' (by omega) hc2

/-- Painting a cleared column: the column holds exactly `colVal`. -/
lemma writeServerColumn_cleared (g : Grid) (c0 : Nat) (hc0 : 2 ≤ c0) (s : MCPServer)
    (caps : Caps) (r : Nat) (hr2 : 2 ≤ r) (hrM : r ≤ MAXROW) :
    writeServerColumn (clearColumn g c0) c0 s caps r c0 = colVal s.status caps r := by
  rw [writeServerColumn_apply _ hc0, if_pos rfl,
    if_neg (show ¬ (r = HEADER_ROW) from by unfold HEADER_ROW; omega)]
  have hcl : clearColumn g c0 r c0 = none := by
    unfold clearColumn
    rw [if_pos ⟨rfl, by unfold STATUS_ROW; omega, hrM⟩]
  rw [hcl, overlay_base_none]

/-- Painting a blank column gives the same contents. -/
lemma writeServerColumn_blank (g : Grid) (c0 : Nat) (hc0 : 2 ≤ c0) (s : MCPServer)
    (caps : Caps) (r : Nat) (hr2 : 2 ≤ r) (hrM : r ≤ MAXROW)
    (hblank : g r c0 = none) :
    writeServerColumn g c0 s caps r c0 = colVal s.status caps r := by
  rw [writeServerColumn_apply _ hc0, if_pos rfl,
    if_neg (show ¬ (r = HEADER_ROW) from by unfold HEADER_ROW; omega), hblank,
    overlay_base_none]

/-- Header+status writes over a cleared column. -/
lemma statusOnly_cleared (g : Grid) (c0 : Nat) (hc0 : 2 ≤ c0) (s : MCPServer)
    (r : Nat) (hr2 : 2 ≤ r) (hrM : r ≤ MAXROW) :
    setCell (setCell (clearColumn g c0) HEADER_ROW c0 s.name) STATUS_ROW c0 s.status r c0 =
      colPaint s none r := by
  unfold setCell colPaint
  by_cases hr : r = STATUS_ROW
  · rw [if_pos ⟨hr, rfl⟩, if_pos hr]
  · rw [if_neg (fun h => hr h.1), if_neg hr,
      if_neg (fun h => (show ¬ (r = HEADER_ROW) from by unfold HEADER_ROW STATUS_ROW at *; omega) h.1)]
    unfold clearColumn
    rw [if_pos ⟨rfl, by unfold STATUS_ROW at *; omega, hrM⟩]

/-- Header+status writes over a blank column. -/
lemma statusOnly_blank (g : Grid) (c0 : Nat) (hc0 : 2 ≤ c0) (s : MCPServer)
    (r : Nat) (hr2 : 2 ≤ r) (hrM : r ≤ MAXROW) (hblank : g r c0 = none) :
    setCell (setCell g HEADER_ROW c0 s.name) STATUS_ROW c0 s.status r c0 =
      colPaint s none r := by
  unfold setCell colPaint
  by_cases hr : r = STATUS_ROW
  · rw [if_pos ⟨hr, rfl⟩, if_pos hr]
  · rw [if_neg (fun h => hr h.1), if_neg hr,
      if_neg (fun h => (show ¬ (r = HEADER_ROW) from by unfold HEADER_ROW STATUS_ROW at *; omega) h.1),
      hblank]

/-- Sequential conditional writes, newest on top. -/
def overlayAll (ws : List (Option String)) (x : Option String) : Option String :=
  ws.foldl (fun acc w => overlay w acc) x

lemma overlayAll_shift : ∀ (ws : List (Option String)) (x : Option String),
    overlayAll ws x = overlay (overlayAll ws none) x := by
  intro ws
  induction ws with
  | nil => intro x; cases x <;> rfl
  | cons w ws ih =>
    intro x
    show overlayAll ws (overlay w x) = overlay (overlayAll ws (overlay w none)) x
    rw [ih (overlay w x), ih (overlay w none)]
    cases overlayAll ws none with
    | some a => rfl
    | none => cases w <;> rfl

lemma overlay_self (A x : Option String) : overlay A (overlay A x) = overlay A x := by
  cases A <;> rfl

lemma overlayAll_idem (ws : List (Option String)) (x : Option String) :
    overlayAll ws (overlayAll ws x) = overlayAll ws x := by
  rw [overlayAll_shift ws (overlayAll ws x), overlayAll_shift ws x, overlay_self,
    ← overlayAll_shift]

lemma resolveCol_fst_colOne (g : Grid) (name : String) (r : Nat) :
    (resolveCol g name).1 r 1 = g r 1 := by
  unfold resolveCol
  cases hf : findServerColumn g name with
  | none => rfl
  | some c0 =>
    show clearColumn g c0 r 1 = g r 1
    have hge := findServerColumn_ge_two g name c0 hf
    unfold clearColumn
    rw [if_neg (by intro h; omega)]

/-- `resolveCol` leaves every cell outside its own column alone. -/
lemma resolveCol_fst_ne (g : Grid) (name : String) (r c : Nat)
    (hc : c ≠ (resolveCol g name).2) : (resolveCol g name).1 r c = g r c := by
  unfold resolveCol at hc ⊢
  cases hf : findServerColumn g name with
  | none => rfl
  | some c0 =>
    rw [hf] at hc
    show clearColumn g c0 r c = g r c
    unfold clearColumn
    rw [if_neg (fun h => hc h.1)]

/-- `resolveCol` leaves rows above the status row alone. -/
lemma resolveCol_fst_low (g : Grid) (name : String) (r c : Nat) (hr : r < STATUS_ROW) :
    (resolveCol g name).1 r c = g r c := by
  unfold resolveCol
  cases hf : findServerColumn g name with
  | none => rfl
  | some c0 =>
    show clearColumn g c0 r c = g r c
    unfold clearColumn
    rw [if_neg (by intro h; omega)]

lemma step_colOne (src : Source) (st : Grid × Nat × List String) (s0 : MCPServer)
    (r : Nat) :
    (step src st s0).1 r 1 = overlay (colOneWriteOf src s0 r) (st.1 r 1) := by
  rw [step_grid_eq]
  unfold colOneWriteOf
  cases ha : action src s0 with
  | none => rfl
  | some p =>
    rcases p with ⟨s, oc⟩
    cases oc with
    | some caps =>
      show writeServerColumn (resolveCol st.1 s.name).1 (resolveCol st.1 s.name).2 s caps r 1 =
        overlay (colOneVal caps r) (st.1 r 1)
      have hge := resolveCol_ge_two st.1 s.name
      rw [writeServerColumn_apply _ hge, if_neg (by omega : ¬ ((1:Nat) = (resolveCol st.1 s.name).2)),
        if_pos rfl, resolveCol_fst_colOne]
    | none =>
      show setCell (setCell (resolveCol st.1 s.name).1 HEADER_ROW (resolveCol st.1 s.name).2
          s.name) STATUS_ROW (resolveCol st.1 s.name).2 s.status r 1 =
        overlay none (st.1 r 1)
      have hge := resolveCol_ge_two st.1 s.name
      unfold setCell
      rw [if_neg (by intro h; omega), if_neg (by intro h; omega), resolveCol_fst_colOne,
        overlay_none]

/-- Column 1 of the final grid is the initial column overlaid with every
    step's (source-determined) writes, in order. -/
lemma foldl_colOne (src : Source) : ∀ (ss : List MCPServer) (st : Grid × Nat × List String)
    (r : Nat),
    (List.foldl (step src) st ss).1 r 1 =
      overlayAll (ss.map (fun s0 => colOneWriteOf src s0 r)) (st.1 r 1) := by
  intro ss
  induction ss with
  | nil => intro st r; rfl
  | cons s0 rest ih =>
    intro st r
    show (List.foldl (step src) (step src st s0) rest).1 r 1 = _
    rw [ih, step_colOne]
    rfl

lemma action_spec (src : Source) (s0 s : MCPServer) (oc : Option Caps)
    (h : action src s0 = some (s, oc)) :
    src.check s0.name = .ok s ∧
      ((∃ caps, oc = some caps ∧ s.status = "Connected" ∧ src.caps s.name = .ok caps) ∨
       (oc = none ∧ s.status ≠ "Connected")) := by
  unfold action at h
  split at h
  · exact absurd h (by simp)
  · rename_i s' hchk
    by_cases hst : s'.status = "Connected"
    · rw [if_pos hst] at h
      split at h
      · exact absurd h (by simp)
      · rename_i caps hcaps
        have hp := Option.some.inj h
        have hs : s' = s := congrArg Prod.fst hp
        have ho : some caps = oc := congrArg Prod.snd hp
        exact ⟨hs ▸ hchk, Or.inl ⟨caps, ho.symm, hs ▸ hst, hs ▸ hcaps⟩⟩
    · rw [if_neg hst] at h
      have hp := Option.some.inj h
      have hs : s' = s := congrArg Prod.fst hp
      have ho : (none : Option Caps) = oc := congrArg Prod.snd hp
      exact ⟨hs ▸ hchk, Or.inr ⟨ho.symm, hs ▸ hst⟩⟩

lemma colVal_none_of_ge (status : String) (cs : Caps) (r : Nat)
    (hr : endRow cs ≤ r) : colVal status cs r = none := by
  have e1 : resourcesRow cs = FIRST_DATA_ROW + secLen cs.tools + 1 := rfl
  have e2 : promptsRow cs = resourcesRow cs + secLen cs.resources + 1 := rfl
  have e3 : endRow cs = promptsRow cs + secLen cs.prompts := rfl
  have l1 := secLen_pos cs.tools
  have l2 := secLen_pos cs.resources
  have l3 := secLen_pos cs.prompts
  have hF : FIRST_DATA_ROW = 4 := rfl
  have hS : STATUS_ROW = 2 := rfl
  have hT : secColVal cs.tools FIRST_DATA_ROW r = none := by
    by_contra hc
    have := secColVal_ne_none_bounds _ _ _ hc
    omega
  have hR : secColVal cs.resources (resourcesRow cs) r = none := by
    by_contra hc
    have := secColVal_ne_none_bounds _ _ _ hc
    omega
  have hP : secColVal cs.prompts (promptsRow cs) r = none := by
    by_contra hc
    have := secColVal_ne_none_bounds _ _ _ hc
    omega
  unfold colVal
  rw [if_neg (by omega), hT, hR, hP]
  rfl

lemma colVal_none_of_low (status : String) (cs : Caps) (r : Nat)
    (hr2 : r ≠ STATUS_ROW) (hr : r < FIRST_DATA_ROW) : colVal status cs r = none := by
  obtain ⟨hT, hR, hP⟩ := colTRP_none_of_lt cs r hr
  unfold colVal
  rw [if_neg hr2, hT, hR, hP]
  rfl

/-- A step never touches row 0 of a data column. -/
lemma step_row0 (src : Source) (st : Grid × Nat × List String) (s0 : MCPServer)
    (c : Nat) (hc : 2 ≤ c) : (step src st s0).1 0 c = st.1 0 c := by
  rw [step_grid_eq]
  cases ha : action src s0 with
  | none => rfl
  | some p =>
    rcases p with ⟨s, oc⟩
    have hge := resolveCol_ge_two st.1 s.name
    cases oc with
    | some caps =>
      show writeServerColumn (resolveCol st.1 s.name).1 (resolveCol st.1 s.name).2 s caps 0 c =
        st.1 0 c
      rw [writeServerColumn_apply _ hge]
      by_cases hcc : c = (resolveCol st.1 s.name).2
      · rw [if_pos hcc, if_neg (by decide : ¬ ((0:Nat) = HEADER_ROW)),
          colVal_none_of_low _ _ _ (by decide) (by decide), overlay_none,
          resolveCol_fst_low _ _ _ _ (by decide)]
      · rw [if_neg hcc, if_neg (by omega : ¬ (c = 1)),
          resolveCol_fst_low _ _ _ _ (by decide)]
    | none =>
      show setCell (setCell (resolveCol st.1 s.name).1 HEADER_ROW (resolveCol st.1 s.name).2
          s.name) STATUS_ROW (resolveCol st.1 s.name).2 s.status 0 c = st.1 0 c
      unfold setCell
      rw [if_neg (by intro h; exact absurd h.1 (by decide)),
        if_neg (by intro h; exact absurd h.1 (by decide)),
        resolveCol_fst_low _ _ _ _ (by decide)]

/-- A step never touches rows past MAXROW of a data column when the source's
    capability lists fit within the sheet. -/
lemma step_row_high (src : Source)
    (hcap : ∀ n caps, src.caps n = .ok caps → endRow caps ≤ MAXROW)
    (st : Grid × Nat × List String) (s0 : MCPServer) (r c : Nat)
    (hc : 2 ≤ c) (hr : MAXROW < r) : (step src st s0).1 r c = st.1 r c := by
  rw [step_grid_eq]
  cases ha : action src s0 with
  | none => rfl
  | some p =>
    rcases p with ⟨s, oc⟩
    have hge := resolveCol_ge_two st.1 s.name
    have hfst : (resolveCol st.1 s.name).1 r c = st.1 r c := by
      unfold resolveCol
      cases hf : findServerColumn st.1 s.name with
      | none => rfl
      | some c0 =>
        show clearColumn st.1 c0 r c = st.1 r c
        unfold clearColumn
        rw [if_neg (by intro h; omega)]
    cases oc with
    | some caps =>
      obtain ⟨_, hd⟩ := action_spec src s0 s (some caps) ha
      rcases hd with ⟨caps', he, _, hcaps'⟩ | ⟨he, _⟩
      · have hce : caps' = caps := (Option.some.inj he).symm
        have hend : endRow caps ≤ MAXROW := hcap s.name caps (hce ▸ hcaps')
        show writeServerColumn (resolveCol st.1 s.name).1 (resolveCol st.1 s.name).2 s caps r c =
          st.1 r c
        rw [writeServerColumn_apply _ hge]
        by_cases hcc : c = (resolveCol st.1 s.name).2
        · have hM2 : (2:Nat) ≤ MAXROW := by decide
          rw [if_pos hcc, if_neg (by unfold HEADER_ROW; omega : ¬ (r = HEADER_ROW)),
            colVal_none_of_ge _ _ _ (by omega), overlay_none, hfst]
        · rw [if_neg hcc, if_neg (by omega : ¬ (c = 1)), hfst]
      · exact absurd he (by simp)
    | none =>
      show setCell (setCell (resolveCol st.1 s.name).1 HEADER_ROW (resolveCol st.1 s.name).2
          s.name) STATUS_ROW (resolveCol st.1 s.name).2 s.status r c = st.1 r c
      unfold setCell
      have hM2 : (2:Nat) ≤ MAXROW := by decide
      rw [if_neg (by intro h; unfold STATUS_ROW at h; omega),
        if_neg (by intro h; unfold HEADER_ROW at h; omega), hfst]

/-- A step writes only its own resolved column (besides column 1). -/
lemma step_other_col (src : Source) (st : Grid × Nat × List String) (s0 s : MCPServer)
    (oc : Option Caps) (ha : action src s0 = some (s, oc)) (r c : Nat) (hc : 2 ≤ c)
    (hcc : c ≠ (resolveCol st.1 s.name).2) :
    (step src st s0).1 r c = st.1 r c := by
  cases oc with
  | some caps =>
    rw [step_grid_eq]
    simp only [ha]
    rw [writeServerColumn_apply _ (resolveCol_ge_two st.1 s.name), if_neg hcc,
      if_neg (by omega : ¬ (c = 1)), resolveCol_fst_ne st.1 s.name r c hcc]
  | none =>
    rw [step_grid_eq]
    simp only [ha, setCell]
    rw [if_neg (fun h => hcc h.2), if_neg (fun h => hcc h.2),
      resolveCol_fst_ne st.1 s.name r c hcc]

/-- The header row after a step whose action succeeded. -/
lemma step_header_at (src : Source) (st : Grid × Nat × List String) (s0 s : MCPServer)
    (oc : Option Caps) (ha : action src s0 = some (s, oc)) (c : Nat) :
    (step src st s0).1 HEADER_ROW c =
      if c = (resolveCol st.1 s.name).2 then some s.name else st.1 HEADER_ROW c := by
  cases oc with
  | some caps =>
    rw [step_grid_eq]
    simp only [ha]
    rw [writeServerColumn_apply _ (resolveCol_ge_two st.1 s.name)]
    by_cases hcc : c = (resolveCol st.1 s.name).2
    · rw [if_pos hcc, if_pos hcc, if_pos rfl]
    · rw [if_neg hcc, if_neg hcc]
      by_cases hc1 : c = 1
      · rw [if_pos hc1, colOneVal_none_of_lt _ _ (by decide), overlay_none,
          resolveCol_fst_header]
      · rw [if_neg hc1, resolveCol_fst_header]
  | none =>
    rw [step_grid_eq]
    simp only [ha, setCell]
    rw [if_neg (fun h => (by decide : ¬ (HEADER_ROW = STATUS_ROW)) h.1)]
    by_cases hcc : c = (resolveCol st.1 s.name).2
    · rw [if_pos ⟨trivial, hcc⟩, if_pos hcc]
    · rw [if_neg (fun h => hcc h.2), if_neg hcc, resolveCol_fst_header]

/-- A step never touches column 0. -/
lemma step_col0 (src : Source) (st : Grid × Nat × List String) (s0 : MCPServer) (r : Nat) :
    (step src st s0).1 r 0 = st.1 r 0 := by
  rw [step_grid_eq]
  cases ha : action src s0 with
  | none => rfl
  | some p =>
    rcases p with ⟨s, oc⟩
    have hge := resolveCol_ge_two st.1 s.name
    cases oc with
    | some caps =>
      show writeServerColumn (resolveCol st.1 s.name).1 (resolveCol st.1 s.name).2 s caps
        r 0 = st.1 r 0
      rw [writeServerColumn_apply _ hge,
        if_neg (by omega : ¬ ((0:Nat) = (resolveCol st.1 s.name).2)),
        if_neg (by omega : ¬ ((0:Nat) = 1)), resolveCol_fst_ne st.1 s.name r 0 (by omega)]
    | none =>
      show setCell (setCell (resolveCol st.1 s.name).1 HEADER_ROW
          (resolveCol st.1 s.name).2 s.name) STATUS_ROW (resolveCol st.1 s.name).2
          s.status r 0 = st.1 r 0
      unfold setCell
      rw [if_neg (by intro h; omega), if_neg (by intro h; omega),
        resolveCol_fst_ne st.1 s.name r 0 (by omega)]

lemma foldl_col0 (src : Source) : ∀ (ss : List MCPServer) (st : Grid × Nat × List String)
    (r : Nat), (List.foldl (step src) st ss).1 r 0 = st.1 r 0 := by
  intro ss
  induction ss with
  | nil => intro st r; rfl
  | cons s0 rest ih =>
    intro st r
    show (List.foldl (step src) (step src st s0) rest).1 r 0 = st.1 r 0
    rw [ih (step src st s0) r, step_col0]

lemma foldl_row0 (src : Source) : ∀ (ss : List MCPServer) (st : Grid × Nat × List String)
    (c : Nat), 2 ≤ c → (List.foldl (step src) st ss).1 0 c = st.1 0 c := by
  intro ss
  induction ss with
  | nil => intro st c _; rfl
  | cons s0 rest ih =>
    intro st c hc
    show (List.foldl (step src) (step src st s0) rest).1 0 c = st.1 0 c
    rw [ih (step src st s0) c hc, step_row0 src st s0 c hc]

lemma foldl_row_high (src : Source)
    (hcap : ∀ n caps, src.caps n = .ok caps → endRow caps ≤ MAXROW) :
    ∀ (ss : List MCPServer) (st : Grid × Nat × List String) (r c : Nat),
      2 ≤ c → MAXROW < r → (List.foldl (step src) st ss).1 r c = st.1 r c := by
  intro ss
  induction ss with
  | nil => intro st r c _ _; rfl
  | cons s0 rest ih =>
    intro st r c hc hr
    show (List.foldl (step src) (step src st s0) rest).1 r c = st.1 r c
    rw [ih (step src st s0) r c hc hr, step_row_high src hcap st s0 r c hc hr]

/-- Blank-header columns stay blank below the header through a step. -/
lemma step_BC (src : Source) (st : Grid × Nat × List String) (s0 : MCPServer)
    (hbc : ∀ c, 2 ≤ c → st.1 HEADER_ROW c = none →
      ∀ r, 2 ≤ r → r ≤ MAXROW → st.1 r c = none) :
    ∀ c, 2 ≤ c → (step src st s0).1 HEADER_ROW c = none →
      ∀ r, 2 ≤ r → r ≤ MAXROW → (step src st s0).1 r c = none := by
  intro c hc hh r hr2 hrM
  cases ha : action src s0 with
  | none =>
    have hg : (step src st s0).1 = st.1 := by rw [step_grid_eq, ha]
    rw [hg] at hh ⊢
    exact hbc c hc hh r hr2 hrM
  | some p =>
    rcases p with ⟨s, oc⟩
    by_cases hcc : c = (resolveCol st.1 s.name).2
    · rw [step_header_at src st s0 s oc ha c, if_pos hcc] at hh
      exact absurd hh (by simp)
    · rw [step_other_col src st s0 s oc ha HEADER_ROW c hc hcc] at hh
      rw [step_other_col src st s0 s oc ha r c hc hcc]
      exact hbc c hc hh r hr2 hrM

lemma foldl_BC (src : Source) : ∀ (ss : List MCPServer) (st : Grid × Nat × List String),
    (∀ c, 2 ≤ c → st.1 HEADER_ROW c = none →
      ∀ r, 2 ≤ r → r ≤ MAXROW → st.1 r c = none) →
    ∀ c, 2 ≤ c → (List.foldl (step src) st ss).1 HEADER_ROW c = none →
      ∀ r, 2 ≤ r → r ≤ MAXROW → (List.foldl (step src) st ss).1 r c = none := by
  intro ss
  induction ss with
  | nil => intro st hbc; exact hbc
  | cons s0 rest ih =>
    intro st hbc
    exact ih (step src st s0) (step_BC src st s0 hbc)

/-- The last server of the list whose action succeeds and whose name
    resolves, in grid `G`, to column `c`. -/
def lastPaint (src : Source) (G : Grid) : List MCPServer → Nat → Option (MCPServer × Option Caps)
  | [], _ => none
  | s0 :: rest, c =>
    match lastPaint src G rest c with
    | some d => some d
    | none =>
      match action src s0 with
      | none => none
      | some (s, oc) => if findServerColumn G s.name = some c then some (s, oc) else none

lemma lastPaint_cons (src : Source) (G : Grid) (s0 : MCPServer) (rest : List MCPServer)
    (c : Nat) :
    lastPaint src G (s0 :: rest) c =
      match lastPaint src G rest c with
      | some d => some d
      | none =>
        match action src s0 with
        | none => none
        | some (s, oc) =>
          if findServerColumn G s.name = some c then some (s, oc) else none := rfl

/-- After a step writes server `s`, any later grid preserving header values
    still finds `s.name` — at the very column the step resolved. -/
lemma step_find_final (src : Source) (st : Grid × Nat × List String) (s0 s : MCPServer)
    (oc : Option Caps) (ha : action src s0 = some (s, oc)) (B : Nat)
    (hB : ∀ c, B ≤ c → st.1 HEADER_ROW c = none) (hB2 : 2 ≤ B) (hBM : B ≤ MAXCOL)
    (GF : Grid)
    (hpres : ∀ c v, (step src st s0).1 HEADER_ROW c = some v → GF HEADER_ROW c = some v) :
    findServerColumn GF s.name = some (resolveCol st.1 s.name).2 ∧
    GF HEADER_ROW (resolveCol st.1 s.name).2 = some s.name := by
  have hge := resolveCol_ge_two st.1 s.name
  have hle : (resolveCol st.1 s.name).2 ≤ B :=
    (resolveCol_snd_cases st.1 s.name B hB hB2 hBM).2
  have hM2 : (2:Nat) ≤ MAXCOL := by decide
  have hname : GF HEADER_ROW (resolveCol st.1 s.name).2 = some s.name := by
    apply hpres
    rw [step_header_at src st s0 s oc ha, if_pos rfl]
  have hpre_st : ∀ c', 2 ≤ c' → c' < (resolveCol st.1 s.name).2 →
      ∃ v, st.1 HEADER_ROW c' = some v ∧ v ≠ s.name := by
    intro c' h1 h2
    rcases hf : findServerColumn st.1 s.name with _ | c0
    · have hsnd : (resolveCol st.1 s.name).2 = getNextColumn st.1 := by
        unfold resolveCol
        rw [hf]
      have hgn : getNextColumn st.1 = nextFrom st.1 MAXCOL 2 1 := rfl
      rw [hsnd, hgn] at h2
      obtain ⟨_, _, r3, r4⟩ := nextFrom_spec st.1 MAXCOL 2 1 B rfl (by omega) hB2
        (by omega) (hB B (le_refl B))
      have hnb : st.1 HEADER_ROW c' ≠ none := r4 c' h1 h2
      rcases ho : st.1 HEADER_ROW c' with _ | v
      · exact absurd ho hnb
      · refine ⟨v, rfl, ?_⟩
        intro hv
        exact findFrom_none_no_match st.1 s.name MAXCOL 2 c' hf h1 (by omega)
          (fun c'' hc1 hc2 => r4 c'' hc1 (by omega)) (by rw [ho, hv])
    · have hsnd : (resolveCol st.1 s.name).2 = c0 := by
        unfold resolveCol
        rw [hf]
      rw [hsnd] at h2
      obtain ⟨_, _, hall⟩ := findFrom_sound st.1 s.name MAXCOL 2 c0 hf
      exact hall c' h1 h2
  have hpre : ∀ c', 2 ≤ c' → c' < (resolveCol st.1 s.name).2 →
      ∃ v, GF HEADER_ROW c' = some v ∧ v ≠ s.name := by
    intro c' h1 h2
    obtain ⟨v, hv, hvne⟩ := hpre_st c' h1 h2
    refine ⟨v, hpres c' v ?_, hvne⟩
    rw [step_header_at src st s0 s oc ha, if_neg (by omega)]
    exact hv
  exact ⟨findFrom_complete GF s.name MAXCOL 2 _ hge (by omega) hname hpre, hname⟩

/-- Every server processed by the loop can be found afterwards, under its
    check-result name. -/
lemma foldl_find_final (src : Source) : ∀ (ss : List MCPServer)
    (st : Grid × Nat × List String) (B : Nat),
    (∀ c, B ≤ c → st.1 HEADER_ROW c = none) → 2 ≤ B → B + ss.length ≤ MAXCOL →
    ∀ s0, s0 ∈ ss → ∀ s oc, action src s0 = some (s, oc) →
      ∃ c0, findServerColumn (List.foldl (step src) st ss).1 s.name = some c0 ∧
        (List.foldl (step src) st ss).1 HEADER_ROW c0 = some s.name := by
  intro ss
  induction ss with
  | nil => intro st B _ _ _ s0 hmem; exact absurd hmem (List.not_mem_nil s0)
  | cons s1 rest ih =>
    intro st B hB hB2 hroom s0 hmem s oc ha
    have hBM : B ≤ MAXCOL := by simp only [List.length_cons] at hroom; omega
    have hroom' : (B + 1) + rest.length ≤ MAXCOL := by
      simp only [List.length_cons] at hroom; omega
    have hB' := (step_header src st s1 B hB hB2 hBM).2
    rcases List.mem_cons.mp hmem with he | hmem'
    · subst he
      obtain ⟨hpresH, _⟩ := foldl_header src rest (step src st s0) (B + 1) hB'
        (by omega) hroom'
      obtain ⟨hfind, hname⟩ := step_find_final src st s0 s oc ha B hB hB2 hBM
        (List.foldl (step src) (step src st s0) rest).1 hpresH
      exact ⟨(resolveCol st.1 s.name).2, hfind, hname⟩
    · exact ih (step src st s1) (B + 1) hB' (by omega) hroom' s0 hmem' s oc ha

/-- What a step writes at its own resolved column, on data rows: exactly the
    paint of the server's action (the found case clears first; the allocated
    case lands on a column that is blank below its blank header). -/
lemma step_paint (src : Source) (st : Grid × Nat × List String) (s0 s : MCPServer)
    (oc : Option Caps) (ha : action src s0 = some (s, oc)) (B : Nat)
    (hbc : ∀ c, 2 ≤ c → st.1 HEADER_ROW c = none →
      ∀ r, 2 ≤ r → r ≤ MAXROW → st.1 r c = none)
    (hB : ∀ c, B ≤ c → st.1 HEADER_ROW c = none) (hB2 : 2 ≤ B) (hBM : B ≤ MAXCOL)
    (r : Nat) (hr2 : 2 ≤ r) (hrM : r ≤ MAXROW) :
    (step src st s0).1 r (resolveCol st.1 s.name).2 = colPaint s oc r := by
  have hM2 : (2:Nat) ≤ MAXCOL := by decide
  rcases hf : findServerColumn st.1 s.name with _ | c0
  · have hsnd : resolveCol st.1 s.name = (st.1, getNextColumn st.1) := by
      unfold resolveCol
      rw [hf]
    have hgn : getNextColumn st.1 = nextFrom st.1 MAXCOL 2 1 := rfl
    obtain ⟨r1, _, _, _⟩ := nextFrom_spec st.1 MAXCOL 2 1 B rfl (by omega) hB2
      (by omega) (hB B (le_refl B))
    have hhdr : st.1 HEADER_ROW (getNextColumn st.1) = none := by rw [hgn]; exact r1
    have hblank : st.1 r (getNextColumn st.1) = none :=
      hbc _ (getNextColumn_ge_two st.1) hhdr r hr2 hrM
    cases oc with
    | some caps =>
      rw [step_grid_eq]
      simp only [ha]
      rw [hsnd]
      exact writeServerColumn_blank st.1 _ (getNextColumn_ge_two st.1) s caps r hr2 hrM hblank
    | none =>
      rw [step_grid_eq]
      simp only [ha]
      rw [hsnd]
      exact statusOnly_blank st.1 _ (getNextColumn_ge_two st.1) s r hr2 hrM hblank
  · have hsnd : resolveCol st.1 s.name = (clearColumn st.1 c0, c0) := by
      unfold resolveCol
      rw [hf]
    have hc0 : 2 ≤ c0 := findServerColumn_ge_two st.1 s.name c0 hf
    cases oc with
    | some caps =>
      rw [step_grid_eq]
      simp only [ha]
      rw [hsnd]
      exact writeServerColumn_cleared st.1 c0 hc0 s caps r hr2 hrM
    | none =>
      rw [step_grid_eq]
      simp only [ha]
      rw [hsnd]
      exact statusOnly_cleared st.1 c0 hc0 s r hr2 hrM

/-- Characterization of the refresh loop on data cells: every column holds
    exactly the paint of the last listed server resolving to it in the final
    grid, and columns nobody resolves to are untouched. -/
lemma run1_char (src : Source) : ∀ (ss : List MCPServer) (st : Grid × Nat × List String)
    (B : Nat),
    (∀ c, 2 ≤ c → st.1 HEADER_ROW c = none →
      ∀ r, 2 ≤ r → r ≤ MAXROW → st.1 r c = none) →
    (∀ c, B ≤ c → st.1 HEADER_ROW c = none) → 2 ≤ B → B + ss.length ≤ MAXCOL →
    ∀ r c, 2 ≤ r → r ≤ MAXROW → 2 ≤ c →
      (List.foldl (step src) st ss).1 r c =
        match lastPaint src (List.foldl (step src) st ss).1 ss c with
        | some (s, oc) => colPaint s oc r
        | none => st.1 r c := by
  intro ss
  induction ss with
  | nil => intro st B hbc hB hB2 hroom r c hr2 hrM hc2; rfl
  | cons s0 rest ih =>
    intro st B hbc hB hB2 hroom r c hr2 hrM hc2
    have hBM : B ≤ MAXCOL := by simp only [List.length_cons] at hroom; omega
    have hroom' : (B + 1) + rest.length ≤ MAXCOL := by
      simp only [List.length_cons] at hroom; omega
    have hB' := (step_header src st s0 B hB hB2 hBM).2
    have hbc' := step_BC src st s0 hbc
    have hIH := ih (step src st s0) (B + 1) hbc' hB' (by omega) hroom' r c hr2 hrM hc2
    have hfold : List.foldl (step src) st (s0 :: rest) =
        List.foldl (step src) (step src st s0) rest := rfl
    rw [hfold, lastPaint_cons]
    cases hlp : lastPaint src (List.foldl (step src) (step src st s0) rest).1 rest c with
    | some d =>
      rcases d with ⟨s, oc⟩
      simp only [hlp] at hIH
      exact hIH
    | none =>
      simp only [hlp] at hIH
      cases ha : action src s0 with
      | none =>
        have hg : (step src st s0).1 r c = st.1 r c := by rw [step_grid_eq, ha]
        exact hIH.trans hg
      | some p =>
        rcases p with ⟨s, oc⟩
        obtain ⟨hpresH, _⟩ := foldl_header src rest (step src st s0) (B + 1) hB'
          (by omega) hroom'
        obtain ⟨hfind, _⟩ := step_find_final src st s0 s oc ha B hB hB2 hBM
          (List.foldl (step src) (step src st s0) rest).1 hpresH
        by_cases hcc : c = (resolveCol st.1 s.name).2
        · have hcond : findServerColumn
              (List.foldl (step src) (step src st s0) rest).1 s.name = some c := by
            rw [hfind, hcc]
          have hpaint : (step src st s0).1 r c = colPaint s oc r := by
            rw [hcc]
            exact step_paint src st s0 s oc ha B hbc hB hB2 hBM r hr2 hrM
          show (List.foldl (step src) (step src st s0) rest).1 r c =
            match (if findServerColumn (List.foldl (step src) (step src st s0) rest).1
                s.name = some c then some (s, oc) else none) with
            | some (s, oc) => colPaint s oc r
            | none => st.1 r c
          rw [if_pos hcond]
          exact hIH.trans hpaint
        · have hcond : ¬ (findServerColumn
              (List.foldl (step src) (step src st s0) rest).1 s.name = some c) := by
            rw [hfind]
            intro hcon
            exact hcc (Option.some.inj hcon).symm
          have hother : (step src st s0).1 r c = st.1 r c :=
            step_other_col src st s0 s oc ha r c hc2 hcc
          show (List.foldl (step src) (step src st s0) rest).1 r c =
            match (if findServerColumn (List.foldl (step src) (step src st s0) rest).1
                s.name = some c then some (s, oc) else none) with
            | some (s, oc) => colPaint s oc r
            | none => st.1 r c
          rw [if_neg hcond]
          exact hIH.trans hother

/-- `lastPaint` depends on the grid only through the header scan. -/
lemma lastPaint_congr (src : Source) (G1 G2 : Grid)
    (hf : ∀ name, findServerColumn G2 name = findServerColumn G1 name) :
    ∀ (ss : List MCPServer) (c : Nat), lastPaint src G2 ss c = lastPaint src G1 ss c := by
  intro ss
  induction ss with
  | nil => intro c; rfl
  | cons s0 rest ih =>
    intro c
    rw [lastPaint_cons, lastPaint_cons, ih]
    cases lastPaint src G1 rest c with
    | some d => rfl
    | none =>
      cases action src s0 with
      | none => rfl
      | some p =>
        rcases p with ⟨s, oc⟩
        show (if findServerColumn G2 s.name = some c then some (s, oc) else none) =
          (if findServerColumn G1 s.name = some c then some (s, oc) else none)
        rw [hf s.name]

/-- When every listed server's name is already headed in `G1` (at a column
    holding exactly that name), a run from any state with `G1`'s header row
    keeps the header row pointwise equal to `G1`'s. -/
lemma run2_header (src : Source) (G1 : Grid) : ∀ (ss : List MCPServer)
    (st : Grid × Nat × List String),
    (∀ s0, s0 ∈ ss → ∀ s oc, action src s0 = some (s, oc) →
      ∃ c0, findServerColumn G1 s.name = some c0 ∧ G1 HEADER_ROW c0 = some s.name) →
    (∀ c, st.1 HEADER_ROW c = G1 HEADER_ROW c) →
    ∀ c, (List.foldl (step src) st ss).1 HEADER_ROW c = G1 HEADER_ROW c := by
  intro ss
  induction ss with
  | nil => intro st _ hinv c; exact hinv c
  | cons s0 rest ih =>
    intro st hfind hinv c
    have hinv' : ∀ c', (step src st s0).1 HEADER_ROW c' = G1 HEADER_ROW c' := by
      intro c'
      cases ha : action src s0 with
      | none =>
        have hg : (step src st s0).1 HEADER_ROW c' = st.1 HEADER_ROW c' := by
          rw [step_grid_eq, ha]
        rw [hg]
        exact hinv c'
      | some p =>
        rcases p with ⟨s, oc⟩
        obtain ⟨c0, hf1, hname⟩ := hfind s0 (List.mem_cons_self s0 rest) s oc ha
        have hfst : findServerColumn st.1 s.name = some c0 :=
          (findFrom_congr st.1 G1 hinv s.name MAXCOL 2).trans hf1
        have hsnd : (resolveCol st.1 s.name).2 = c0 := by
          unfold resolveCol
          rw [hfst]
        rw [step_header_at src st s0 s oc ha c']
        by_cases hcc : c' = (resolveCol st.1 s.name).2
        · rw [if_pos hcc, hcc, hsnd]
          exact hname.symm
        · rw [if_neg hcc]
          exact hinv c'
    exact ih (step src st s0)
      (fun s1 hm s oc ha => hfind s1 (List.mem_cons_of_mem s0 hm) s oc ha) hinv' c

/-- The grid a non-empty refresh produces is the loop fold. -/
lemma updateSheet_fold (g : Grid) (src : Source) (hne : src.servers.isEmpty = false) :
    (updateSheet (some g) src).1 =
      (src.servers.foldl (step src) (g, 0, ([] : List String))).1 := by
  unfold updateSheet ensureSheet
  rw [hne]
  rfl

/-- Witness for C9: concrete connection check results, and a concrete refresh
that cannot write "Error" into the status row. -/
theorem check_status_and_refresh_no_error_witness :
    ((checkServerConnection "weather-mcp" (.err "timeout")).name = "weather-mcp" ∧
      ((checkServerConnection "weather-mcp" (.err "timeout")).status = "Connected" ∨
       (checkServerConnection "weather-mcp" (.err "timeout")).status = "Disconnected")) ∧
    (updateSheet (some blankGrid) srcAx).1 STATUS_ROW 2 ≠ some "Error" := by
  constructor
  · exact check_status_and_refresh_no_error.1 "weather-mcp" (.err "timeout")
  · exact check_status_and_refresh_no_error.2 (some blankGrid) srcAx
      (fun n s h => by
        have hss : s = { name := n, status := "Connected" } := (Except.ok.inj h).symm
        rw [hss]
        exact (by decide : ("Connected" : String) ≠ "Error"))
      2 (by decide)

/-- A second run from a grid whose headers already resolve every listed
    server, whose data columns are characterized by `lastPaint`, and whose
    column 1 is a fixed point of the label overlay, reproduces the grid. -/
lemma run2_eq (src : Source) : ∀ (ss : List MCPServer) (G1 : Grid) (B1 : Nat),
    (∀ c, 2 ≤ c → G1 HEADER_ROW c = none →
      ∀ r, 2 ≤ r → r ≤ MAXROW → G1 r c = none) →
    (∀ c, B1 ≤ c → G1 HEADER_ROW c = none) → 2 ≤ B1 → B1 + ss.length ≤ MAXCOL →
    (∀ n caps, src.caps n = .ok caps → endRow caps ≤ MAXROW) →
    (∀ s0, s0 ∈ ss → ∀ s oc, action src s0 = some (s, oc) →
      ∃ c0, findServerColumn G1 s.name = some c0 ∧ G1 HEADER_ROW c0 = some s.name) →
    (∀ r c, 2 ≤ r → r ≤ MAXROW → 2 ≤ c → ∀ s oc,
      lastPaint src G1 ss c = some (s, oc) → G1 r c = colPaint s oc r) →
    (∀ r, ∃ x, G1 r 1 = overlayAll (ss.map (fun s0 => colOneWriteOf src s0 r)) x) →
    (List.foldl (step src) (G1, 0, ([] : List String)) ss).1 = G1 := by
  intro ss G1 B1 hbc1 hB1 hB12 hroom1 hcap hfinds hchar1 hcol1
  have hheads : ∀ c,
      (List.foldl (step src) (G1, 0, ([] : List String)) ss).1 HEADER_ROW c =
        G1 HEADER_ROW c :=
    run2_header src G1 ss (G1, 0, []) hfinds (fun c => rfl)
  have hfindeq : ∀ name,
      findServerColumn (List.foldl (step src) (G1, 0, ([] : List String)) ss).1 name =
        findServerColumn G1 name :=
    fun name => findFrom_congr _ G1 hheads name MAXCOL 2
  have hchar2 := run1_char src ss (G1, 0, []) B1 hbc1 hB1 hB12 hroom1
  funext r c
  by_cases hc0 : c = 0
  · subst hc0
    exact foldl_col0 src ss (G1, 0, []) r
  by_cases hc1 : c = 1
  · subst hc1
    obtain ⟨x, hx⟩ := hcol1 r
    have h2 : (List.foldl (step src) (G1, 0, ([] : List String)) ss).1 r 1 =
        overlayAll (ss.map (fun s0 => colOneWriteOf src s0 r)) (G1 r 1) :=
      foldl_colOne src ss (G1, 0, ([] : List String)) r
    rw [h2, hx, overlayAll_idem]
  have hc2 : 2 ≤ c := by omega
  by_cases hr0 : r = 0
  · subst hr0
    exact foldl_row0 src ss (G1, 0, []) c hc2
  by_cases hr1 : r = 1
  · subst hr1
    exact hheads c
  by_cases hrM : MAXROW < r
  · exact foldl_row_high src hcap ss (G1, 0, []) r c hc2 hrM
  have hr2 : 2 ≤ r := by omega
  have hrM' : r ≤ MAXROW := by omega
  have h2 := hchar2 r c hr2 hrM' hc2
  have hlp := lastPaint_congr src G1
    (List.foldl (step src) (G1, 0, ([] : List String)) ss).1 hfindeq ss c
  rw [hlp] at h2
  cases hd : lastPaint src G1 ss c with
  | none =>
    simp only [hd] at h2
    exact h2
  | some d =>
    rcases d with ⟨s, oc⟩
    simp only [hd] at h2
    exact h2.trans (hchar1 r c hr2 hrM' hc2 s oc hd).symm

/-- C3 (amended): refresh is idempotent on well-formed sheets.  If, in the
starting grid, every column (from 2 on) whose header cell is blank is also
blank on all rows 2..MAXROW, the header row is blank from some column
`B ≥ 2` on with room for the discovered servers
(`B + 2·|servers| ≤ MAXCOL`), and every capability list the source returns
fits on the sheet (`endRow ≤ MAXROW`), then running `refresh()` twice in
succession with the source returning the same data both times yields a grid
after the second call identical, cell for cell, to the grid after the
first.  For an arbitrary grid state the claim is false — see the
counterexample: junk below a blank header survives the first refresh, which
allocates that column without clearing it, but not the second, which finds
the column assigned and clears it. -/
theorem refresh_idempotent_amended (g : Grid) (src : Source) (B : Nat)
    (hbc : ∀ c, 2 ≤ c → g HEADER_ROW c = none →
      ∀ r, 2 ≤ r → r ≤ MAXROW → g r c = none)
    (hB : ∀ c, B ≤ c → g HEADER_ROW c = none)
    (hB2 : 2 ≤ B)
    (hroom : B + 2 * src.servers.length ≤ MAXCOL)
    (hcap : ∀ n caps, src.caps n = .ok caps → endRow caps ≤ MAXROW) :
    (updateSheet (some (updateSheet (some g) src).1) src).1 =
      (updateSheet (some g) src).1 := by
  cases hQ : src.servers.isEmpty with
  | true =>
    have hnil : src.servers = [] := by
      cases hs : src.servers with
      | nil => rfl
      | cons a l =>
        rw [hs] at hQ
        exact absurd hQ (by simp)
    unfold updateSheet ensureSheet
    rw [hnil]
    simp
  | false =>
    have h1 := updateSheet_fold g src hQ
    have h2 := updateSheet_fold (updateSheet (some g) src).1 src hQ
    rw [h2, h1]
    have hlen : B + src.servers.length ≤ MAXCOL := by omega
    obtain ⟨hpres1, hblank1⟩ := foldl_header src src.servers (g, 0, []) B hB hB2 hlen
    have hbc1 := foldl_BC src src.servers (g, 0, []) hbc
    have hfinds := foldl_find_final src src.servers (g, 0, []) B hB hB2 hlen
    have hchar1full := run1_char src src.servers (g, 0, []) B hbc hB hB2 hlen
    refine run2_eq src src.servers
      (List.foldl (step src) (g, 0, ([] : List String)) src.servers).1
      (B + src.servers.length) hbc1 hblank1 (by omega) (by omega) hcap hfinds ?_ ?_
    · intro r c hr2 hrM hc2 s oc hd
      have h := hchar1full r c hr2 hrM hc2
      simp only [hd] at h
      exact h
    · intro r
      exact ⟨g r 1, foldl_colOne src src.servers (g, 0, ([] : List String)) r⟩

/-- Witness for C3 at a concrete input: a blank sheet and one connected
    server with no capabilities, with all premises discharged. -/
theorem refresh_idempotent_amended_witness :
    ((2:Nat) ≤ 2 ∧ 2 + 2 * srcANoCaps.servers.length ≤ MAXCOL) ∧
    (updateSheet (some (updateSheet (some blankGrid) srcANoCaps).1) srcANoCaps).1 =
      (updateSheet (some blankGrid) srcANoCaps).1 :=
  ⟨⟨le_refl 2, by decide⟩,
    refresh_idempotent_amended blankGrid srcANoCaps 2
      (fun c hc hh r hr2 hrM => rfl)
      (fun c hc => rfl)
      (le_refl 2)
      (by decide)
      (fun n caps h => by
        have h' : Except.ok (⟨[], [], []⟩ : Caps) = Except.ok caps := h
        injection h' with h2
        subst h2
        decide)⟩

/-- C3 counterexample: on a grid violating well-formedness — junk at row 20
    of unheaded column 2 — the first refresh allocates column 2 without
    clearing it, so the junk survives, while the second refresh finds the
    column assigned and clears it: the grids after the first and second call
    differ at (20, 2), refuting idempotence for arbitrary grid states. -/
theorem refresh_idempotent_cex :
    (updateSheet (some junkGrid) srcANoCaps).1 20 2 = some "junk" ∧
    (updateSheet (some (updateSheet (some junkGrid) srcANoCaps).1) srcANoCaps).1 20 2 =
      none := by
  decide

end ExcelMCP
